import Mathlib

/-!
# rez: configuration resolution and MSVC toolchain bootstrap

A shallow embedding of `src/include/rez/rez.hpp` and `src/src/rez.cpp`.

* Text (`std::string`, file contents, process output) is a list of characters,
  one per C `char`. Where the source hands text to a C-string interface
  (`strchr`, insertion of a `char` array, `setenv`, `_putenv`, `popen`) only
  the part before the first NUL is seen: that is `cstr`.
* The outside world of a run is a `World`: the process environment, the
  filesystem (path to node) and, for every command line, whether `popen` can
  launch it, what the child prints and the status it exits with.
* `throw` becomes `Except.error` carrying the thrown message; every operation
  that has side effects also returns the world it leaves behind, so that the
  state after a failure can be stated.
* The preprocessor branch `#if defined(_MSC_VER)` is the boolean `msc_ver`.
* Diagnostics written to `std::cerr` under `debug` are not modelled.
-/

namespace rez

/-- Text: `std::string` and C strings. -/
abbrev Str := List Char

/-! ## Constants of `rez.hpp` -/

def Version : Str := "0.0.1".toList
def RezDefinitionPathCpp : Str := "rez.cpp".toList
def RezDefinitionPathC : Str := "rez.c".toList
def CacheDir : Str := ".rez".toList
def CacheFileBasename : Str := "rez-env.txt".toList
def ArtifactDirBasename : Str := "bin".toList
def ArtifactBinaryUnix : Str := "delegate-rez".toList
def DefaultCompilerWindows : Str := "cl".toList
def DefaultCompilerUnixCpp : Str := "c++".toList
def DefaultCompilerUnixC : Str := "cc".toList
def DefaultMSVCToolchainQueryScript : Str :=
  "C:\\Program Files (x86)\\Microsoft Visual Studio\\2019\\Community\\VC\\Auxiliary\\Build\\vcvarsall.bat".toList
def ArchitectureMsvcAmd64 : Str := "x64".toList

/-- Lang denotes a programming language (`enum class Lang`). -/
inductive Lang where
  | Cpp
  | C
  deriving DecidableEq, Repr

/-- Config parameterizes rez builds (`struct Config`); paths are kept in their
native string form. -/
structure Config where
  debug : Bool
  cache_dir_path : Str
  cache_file_path : Str
  windows : Bool
  rez_definition_path : Str
  rez_definition_lang : Lang
  compiler : Str
  artifact_dir_path : Str
  artifact_file_path : Str
  build_command : Str
  deriving DecidableEq

/-- A default-constructed `Config`: the member initialisers of the struct. -/
def Config.init : Config :=
  { debug := false, cache_dir_path := [], cache_file_path := [], windows := false,
    rez_definition_path := [], rez_definition_lang := Lang.Cpp, compiler := [],
    artifact_dir_path := [], artifact_file_path := [], build_command := [] }

/-! ## The outside world -/

/-- A filesystem node: a regular file with its content, or a directory. -/
inductive Node where
  | file (content : Str)
  | dir
  deriving DecidableEq

/-- The state a run can observe and change. `popen cmd` is `none` when the
command cannot be launched, else the full standard output of the child and the
status with which the child exits (0 for success). -/
structure World where
  env : Str → Option Str
  fs : Str → Option Node
  popen : Str → Option (Str × Int)

/-- The call `GetEnvironmentVariable(key)`: `std::nullopt` when the variable is
missing. Every key the source passes is a literal without NUL, and the value is
the C string the runtime returns. -/
def GetEnvironmentVariable (w : World) (key : Str) : Option Str :=
  w.env key

/-- The call `DetectWindowsEnvironment()`: whether COMSPEC has a value. -/
def DetectWindowsEnvironment (w : World) : Bool :=
  (GetEnvironmentVariable w "COMSPEC".toList).isSome

/-! ## Library operations used by the source -/

/-- Maximum of `std::uintmax_t`, the value `static_cast<std::uintmax_t>(-1)`. -/
def UINTMAX_MAX : Nat := 2 ^ 64 - 1

/-- The constant `std::string::npos` on a 64-bit `size_t`. -/
def npos : Nat := 2 ^ 64 - 1

/-- The constant `std::filesystem::path::preferred_separator`: a backslash for
MSVC builds, a slash otherwise. -/
def preferred_separator (msc_ver : Bool) : Char :=
  if msc_ver then '\\' else '/'

/-- The operator `std::filesystem::path::operator/` on native strings, for a
right operand without root name: an absolute right operand replaces the left
one; otherwise a separator is inserted when the left operand has a filename. -/
def pathJoin (msc_ver : Bool) (p q : Str) : Str :=
  if q.head? = some (preferred_separator msc_ver) then q
  else if p = [] ∨ p.getLast? = some (preferred_separator msc_ver) then p ++ q
  else p ++ [preferred_separator msc_ver] ++ q

/-- The manipulator `std::quoted(s)` on output: a double quote, the text with a
backslash before every double quote and backslash, a double quote. -/
def quoted (s : Str) : Str :=
  ['"'] ++ s.flatMap (fun c => if c = '"' ∨ c = '\\' then ['\\', c] else [c]) ++ ['"']

/-- Stream insertion of a `std::filesystem::path`; the standard defines
`os << p` as `os << std::quoted(p.string())`. -/
def ostreamPath (p : Str) : Str :=
  quoted p

/-- The call `std::filesystem::exists(p)`. -/
def fsExists (w : World) (p : Str) : Bool :=
  (w.fs p).isSome

/-- The call `std::filesystem::file_size(p, ec)`: the size of a regular file,
`static_cast<uintmax_t>(-1)` on error. -/
def file_size (w : World) (p : Str) : Nat :=
  match w.fs p with
  | some (Node.file c) => c.length % 2 ^ 64
  | _ => UINTMAX_MAX

/-- The call `std::filesystem::create_directories(p)` for a single-component
path: creates the directory when nothing is there, does nothing when the
directory exists, and throws `filesystem_error` when the path is taken by
something that is not a directory (the text of `what()` is that of libstdc++;
no result depends on it). -/
def create_directories (w : World) (p : Str) : Except Str World :=
  match w.fs p with
  | none => Except.ok { w with fs := fun q => if q = p then some Node.dir else w.fs q }
  | some Node.dir => Except.ok w
  | some (Node.file _) =>
    Except.error ("filesystem error: cannot create directories: Not a directory [".toList ++
      p ++ "]".toList)

/-- A `std::fstream`: whether it is usable (open and without failbit), the file
it is attached to, the file content, and the shared file position. -/
structure FStream where
  good : Bool
  path : Str
  buf : Str
  pos : Nat
  deriving DecidableEq

/-- The calls `std::fstream()` then `open(p)`: the default mode is `in | out`,
which opens an existing regular file at position 0 and fails otherwise, without
creating anything. -/
def FStream.open (w : World) (p : Str) : FStream :=
  match w.fs p with
  | some (Node.file c) => { good := true, path := p, buf := c, pos := 0 }
  | _ => { good := false, path := p, buf := [], pos := 0 }

/-- Stream insertion `cache << text`: a no-op on a failed stream, else the text
is written at the file position. -/
def FStream.write (s : FStream) (text : Str) : FStream :=
  if s.good then
    { s with buf := s.buf.take s.pos ++ text ++ s.buf.drop (s.pos + text.length),
             pos := s.pos + text.length }
  else s

/-- The call `cache.seekg(0)`: a no-op on a failed stream. -/
def FStream.seekg0 (s : FStream) : FStream :=
  if s.good then { s with pos := 0 } else s

/-- The call `getline(cache, line)`: `none` when the stream has failed or is at
end of file (the loop condition is then false); else the characters up to the
next newline, which is consumed and dropped. -/
def FStream.getline (s : FStream) : Option (Str × FStream) :=
  if s.good = false then none
  else
    match s.buf.drop s.pos with
    | [] => none
    | c :: cs =>
      let line := (c :: cs).takeWhile (fun x => x ≠ '\n')
      let used := if line.length < (c :: cs).length then line.length + 1 else line.length
      some (line, { s with pos := s.pos + used })

/-- The call `cache.close()`: the content written through the stream is the
content of the file. -/
def FStream.close (s : FStream) (w : World) : World :=
  if s.good then
    { w with fs := fun q => if q = s.path then some (Node.file s.buf) else w.fs q }
  else w

/-- The body of `fgets` for a budget of `k` characters: reads up to `k`
characters and stops after a newline. Returns what was read and what is left. -/
def readChunk : Nat → Str → Str × Str
  | 0, s => ([], s)
  | _ + 1, [] => ([], [])
  | k + 1, c :: cs =>
    if c = '\n' then ([c], cs)
    else ((c :: (readChunk k cs).1), (readChunk k cs).2)

/-- The call `fgets(line, n, process)`: `nullptr` at end of input, else at most
`n - 1` characters. -/
def fgets (n : Nat) (s : Str) : Option (Str × Str) :=
  match s with
  | [] => none
  | _ :: _ => some (readChunk (n - 1) s)

/-- The size of the buffer `char line[32760]`. -/
def LineBufferSize : Nat := 32760

/-- The call `line.find(c)`: index of the first occurrence, `npos` if none. -/
def find (s : Str) (c : Char) : Nat :=
  if c ∈ s then s.indexOf c else npos

/-- The call `s.substr(pos, n)` for `pos <= s.size()` (true at both call sites:
the position is 0 or one past a found index). -/
def substr (s : Str) (pos n : Nat) : Str :=
  (s.drop pos).take n

/-- The call `setenv(key, value, 1)`: fails with EINVAL when the name is empty
or contains an equals sign, else binds the name. -/
def setenv (env : Str → Option Str) (key value : Str) : Option (Str → Option Str) :=
  if key = [] ∨ '=' ∈ key then none
  else some (fun k => if k = key then some value else env k)

/-- The call `_putenv(envstring)` of the Microsoft C runtime: fails when there
is no equals sign or the name before it is empty; an empty value removes the
variable; else the name is bound to the text after the first equals sign. -/
def _putenv (env : Str → Option Str) (envstring : Str) : Option (Str → Option Str) :=
  if '=' ∉ envstring ∨ envstring.head? = some '=' then none
  else
    let name := envstring.takeWhile (fun x => x ≠ '=')
    let value := envstring.drop (name.length + 1)
    if value = [] then some (fun k => if k = name then none else env k)
    else some (fun k => if k = name then some value else env k)

/-- The text a C-string interface sees of a buffer or of `s.c_str()`: the
characters before the first NUL. -/
def cstr (s : Str) : Str :=
  s.takeWhile (fun c => c ≠ Char.ofNat 0)

/-- The value `pclose` returns for a child that exited with `exit_status`:
`_pclose` of the Microsoft runtime returns the exit status itself, `pclose`
elsewhere returns the wait status, which holds the low byte of the exit status
shifted left by eight bits. -/
def pclose (msc_ver : Bool) (exit_status : Int) : Int :=
  if msc_ver then exit_status else (exit_status % 256) * 256

/-- The decimal digit for a number below ten. -/
def digitChar (d : Nat) : Char :=
  match d with
  | 0 => '0' | 1 => '1' | 2 => '2' | 3 => '3' | 4 => '4'
  | 5 => '5' | 6 => '6' | 7 => '7' | 8 => '8' | _ => '9'

/-- Decimal rendering of a natural number, most significant digit first,
without leading zeros; a number has fewer digits than its value plus one. -/
def showNatAux : Nat → Nat → Str
  | 0, _ => []
  | fuel + 1, n =>
    if n < 10 then [digitChar n]
    else showNatAux fuel (n / 10) ++ [digitChar (n % 10)]

/-- Decimal rendering of a natural number. -/
def showNat (n : Nat) : Str :=
  showNatAux (n + 1) n

/-- Decimal rendering of an `int` as `operator<<` prints it: a minus sign for
a negative number, then the digits. -/
def showInt (i : Int) : Str :=
  match i with
  | Int.ofNat n => showNat n
  | Int.negSucc n => '-' :: showNat (n + 1)

/-- The value of `EINVAL`, the error both environment setters report. -/
def EINVAL : Int := 22

/-! ## `Config::ApplyMSVCToolchain` -/

/-- The query command line built in the cache-miss branch: the script path and
the architecture, each overridable from the environment. -/
def query_command (w : World) : Str :=
  let query_path :=
    match GetEnvironmentVariable w "REZ_TOOLCHAIN_QUERY_PATH".toList with
    | some p => p
    | none => DefaultMSVCToolchainQueryScript
  let arch :=
    match GetEnvironmentVariable w "REZ_ARCH".toList with
    | some a => a
    | none => ArchitectureMsvcAmd64
  "cmd.exe /c \"\"".toList ++ query_path ++ "\" ".toList ++ arch ++ " && set\"".toList

/-- The loop `while (fgets(line, sizeof(line), process) != nullptr)`: `strchr`
and the insertion `cache << line` both see the buffer as a C string, so a
chunk is tested and written only up to its first NUL. Each round consumes at
least one character, so the length of the output is enough fuel. -/
def queryLoop : Nat → Str → FStream → FStream
  | 0, _, cache => cache
  | fuel + 1, out, cache =>
    match fgets LineBufferSize out with
    | none => cache
    | some (line, rest) =>
      queryLoop fuel rest (if '=' ∈ cstr line then cache.write (cstr line) else cache)

/-- The body of the second loop: applies one cache line to the environment,
with `_putenv(line.c_str())` under MSVC and with `find`, `substr` and
`setenv(key.c_str(), value.c_str(), 1)` otherwise. `none` when the setter
reports an error. -/
def applyLine (msc_ver : Bool) (env : Str → Option Str) (line : Str) : Option (Str → Option Str) :=
  if msc_ver then _putenv env (cstr line)
  else
    let j := find line '='
    let key := substr line 0 ((j + 2 ^ 64 - 1) % 2 ^ 64)
    let value := substr line ((j + 1) % 2 ^ 64) line.length
    setenv env (cstr key) (cstr value)

/-- The message thrown when a cache line cannot be applied. -/
def applyError (line : Str) : Str :=
  "error applying environment variable key=value pair: ".toList ++ line ++
    " errno: ".toList ++ showInt EINVAL

/-- The loop `while (getline(cache, line))`: applies the lines in order and
stops at the first one that cannot be applied. Each round consumes at least one
character of the file. -/
def applyLoop (msc_ver : Bool) :
    Nat → FStream → (Str → Option Str) → Except Str Unit × FStream × (Str → Option Str)
  | 0, cache, env => (Except.ok (), cache, env)
  | fuel + 1, cache, env =>
    match cache.getline with
    | none => (Except.ok (), cache, env)
    | some (line, cache1) =>
      match applyLine msc_ver env line with
      | none => (Except.error (applyError line), cache1, env)
      | some env1 => applyLoop msc_ver fuel cache1 env1

/-- The tail of `ApplyMSVCToolchain` from `std::string line;` on: the second
loop, then `cache.close()` on both the throwing and the normal exit. -/
def applyCache (msc_ver : Bool) (cache : FStream) (w : World) : Except Str Unit × World :=
  let r := applyLoop msc_ver (cache.buf.length - cache.pos + 1) cache w.env
  (r.1, r.2.1.close { w with env := r.2.2 })

/-- The message thrown when `pclose` returns something else than `EXIT_SUCCESS`. -/
def queryError (cmd : Str) (query_status : Int) : Str :=
  "error running query command: ".toList ++ cmd ++ " status: ".toList ++ showInt query_status

/-- The method `Config::ApplyMSVCToolchain`. -/
def ApplyMSVCToolchain (msc_ver : Bool) (cfg : Config) (w : World) : Except Str Unit × World :=
  match create_directories w CacheDir with
  | Except.error e => (Except.error e, w)
  | Except.ok w1 =>
    let cache := FStream.open w1 cfg.cache_file_path
    let cache_size := file_size w1 cfg.cache_file_path
    if cache_size = UINTMAX_MAX ∨ cache_size = 0 then
      match w1.popen (cstr (query_command w1)) with
      | none =>
        -- nothing has been written through the stream when this is thrown
        (Except.error ("error launching msvc query command: ".toList ++ query_command w1), w1)
      | some (out, exit_status) =>
        let cache1 := queryLoop out.length out cache
        let query_status := pclose msc_ver exit_status
        if query_status ≠ 0 then
          (Except.error (queryError (query_command w1) query_status), cache1.close w1)
        else
          applyCache msc_ver cache1.seekg0 w1
    else
      applyCache msc_ver cache w1

/-! ## `Config::Load` -/

/-- The value a flags variable contributes: its text when set and non-empty,
else the empty string (`flags_cpp`, `flags_cxx`, `flags_c`). -/
def flagsOf (w : World) (key : Str) : Str :=
  match GetEnvironmentVariable w key with
  | some flags => if flags ≠ [] then flags else []
  | none => []

/-- The compiler after the override step: a set, non-empty override replaces
the default. -/
def overrideCompiler (w : World) (key : Str) (compiler : Str) : Str :=
  match GetEnvironmentVariable w key with
  | some compiler_override_s => if compiler_override_s ≠ [] then compiler_override_s else compiler
  | none => compiler

/-- The text streamed into `ss` from `ss << compiler` to the end of `Load`. -/
def assemble (compiler : Str) (lang : Lang) (flags_cpp flags_cxx flags_c : Str)
    (rez_definition_path artifact_file_path_s : Str) : Str :=
  let flags :=
    (if flags_cpp ≠ [] then flags_cpp ++ " ".toList else []) ++
    (if lang = Lang.Cpp ∧ flags_cxx ≠ [] then flags_cxx ++ " ".toList
     else if lang = Lang.C ∧ flags_c ≠ [] then flags_c ++ " ".toList
     else [])
  if compiler = DefaultCompilerWindows then
    compiler ++ " ".toList ++ flags ++ ostreamPath rez_definition_path ++
      " /link /out:".toList ++ artifact_file_path_s
  else
    compiler ++ " ".toList ++ "-o ".toList ++ artifact_file_path_s ++ " ".toList ++
      flags ++ ostreamPath rez_definition_path

/-- The method `Config::Load`: the resolved configuration or the thrown
message, and the world the call leaves behind. -/
def Load (msc_ver : Bool) (cfg : Config) (w : World) : Except Str Config × World :=
  let cache_dir_path := CacheDir
  let cache_file_path := pathJoin msc_ver cache_dir_path CacheFileBasename
  let windows := DetectWindowsEnvironment w
  let definition : Option (Str × Lang) :=
    if fsExists w RezDefinitionPathCpp then some (RezDefinitionPathCpp, Lang.Cpp)
    else if fsExists w RezDefinitionPathC then some (RezDefinitionPathC, Lang.C)
    else none
  match definition with
  | none => (Except.error "error locating a task definition file rez.\x7bcpp,c\x7d".toList, w)
  | some (rez_definition_path, rez_definition_lang) =>
    let compiler0 :=
      if windows then DefaultCompilerWindows
      else if rez_definition_lang = Lang.Cpp then DefaultCompilerUnixCpp
      else DefaultCompilerUnixC
    let compiler :=
      if rez_definition_lang = Lang.Cpp then overrideCompiler w "CXX".toList compiler0
      else overrideCompiler w "CC".toList compiler0
    let cfg1 : Config :=
      { cfg with cache_dir_path := cache_dir_path, cache_file_path := cache_file_path,
                 windows := windows, rez_definition_path := rez_definition_path,
                 rez_definition_lang := rez_definition_lang, compiler := compiler }
    let boot : Except Str Unit × World :=
      if compiler = DefaultCompilerWindows then ApplyMSVCToolchain msc_ver cfg1 w
      else (Except.ok (), w)
    match boot with
    | (Except.error e, w1) => (Except.error e, w1)
    | (Except.ok _, w1) =>
      let artifact_dir_path := pathJoin msc_ver cache_dir_path ArtifactDirBasename
      let executable := if windows then ArtifactBinaryUnix ++ ".exe".toList else ArtifactBinaryUnix
      let artifact_file_path := pathJoin msc_ver artifact_dir_path executable
      let flags_cpp := flagsOf w1 "CPPFLAGS".toList
      let flags_cxx := if rez_definition_lang = Lang.Cpp then flagsOf w1 "CXXFLAGS".toList else []
      let flags_c := if rez_definition_lang = Lang.Cpp then [] else flagsOf w1 "CFLAGS".toList
      (Except.ok
        { cfg1 with artifact_dir_path := artifact_dir_path,
                    artifact_file_path := artifact_file_path,
                    build_command := assemble compiler rez_definition_lang flags_cpp flags_cxx
                      flags_c rez_definition_path artifact_file_path },
       w1)

/-! ## Views of `Load` used to state results -/

/-- The definition file `Load` selects: the C++ file first, the C file as fallback. -/
def selectDefinition (w : World) : Option (Str × Lang) :=
  if fsExists w RezDefinitionPathCpp then some (RezDefinitionPathCpp, Lang.Cpp)
  else if fsExists w RezDefinitionPathC then some (RezDefinitionPathC, Lang.C)
  else none

/-- The compiler `Load` resolves for a language: the platform default, then the
language-specific override. -/
def resolveCompiler (w : World) (l : Lang) : Str :=
  if l = Lang.Cpp then
    overrideCompiler w "CXX".toList (if DetectWindowsEnvironment w then DefaultCompilerWindows
      else if l = Lang.Cpp then DefaultCompilerUnixCpp else DefaultCompilerUnixC)
  else
    overrideCompiler w "CC".toList (if DetectWindowsEnvironment w then DefaultCompilerWindows
      else if l = Lang.Cpp then DefaultCompilerUnixCpp else DefaultCompilerUnixC)

/-- The artifact path `Load` computes. -/
def artifactFile (msc_ver : Bool) (w : World) : Str :=
  pathJoin msc_ver (pathJoin msc_ver CacheDir ArtifactDirBasename)
    (if DetectWindowsEnvironment w then ArtifactBinaryUnix ++ ".exe".toList else ArtifactBinaryUnix)

/-- The toolchain bootstrap step of `Load`: runs only for the MSVC driver. -/
def bootstrap (m : Bool) (cfg : Config) (w : World) (d : Str) (l : Lang) : Except Str Unit × World :=
  if resolveCompiler w l = DefaultCompilerWindows then
    ApplyMSVCToolchain m
      { cfg with cache_dir_path := CacheDir, cache_file_path := pathJoin m CacheDir CacheFileBasename,
                 windows := DetectWindowsEnvironment w, rez_definition_path := d,
                 rez_definition_lang := l, compiler := resolveCompiler w l } w
  else (Except.ok (), w)

/-! ## Specification-side definitions -/

/-- The function F of the flags rule, in the words of the specification: the
value plus one space when the variable is set and non-empty, else nothing. -/
def flagWord (v : Option Str) : Str :=
  match v with
  | some x => if x = [] then [] else x ++ " ".toList
  | none => []

/-- The name of the language-specific flags variable. -/
def langFlagsVar (l : Lang) : Str :=
  match l with
  | Lang.Cpp => "CXXFLAGS".toList
  | Lang.C => "CFLAGS".toList

/-- The text `/link /out:` that marks the MSVC form of the command. -/
def linkOut : Str := "/link /out:".toList

/-- The lines of a text, each with its newline; a last line without newline is
a line too. -/
def outputLines : Str → List Str
  | [] => []
  | c :: cs =>
    if c = '\n' then [c] :: outputLines cs
    else
      match outputLines cs with
      | [] => [[c]]
      | l :: ls => (c :: l) :: ls

/-- The lines of a text that hold an equals sign, verbatim and in order. -/
def retainedLines (out : Str) : Str :=
  ((outputLines out).filter (fun l => decide ('=' ∈ l))).flatten

/-! ## Concrete worlds used to run the model -/

/-- An environment given by a finite table. -/
def envOf (t : List (Str × Str)) : Str → Option Str :=
  fun k => (t.find? (fun e => e.1 = k)).map Prod.snd

/-- A filesystem given by a finite table. -/
def fsOf (t : List (Str × Node)) : Str → Option Node :=
  fun p => (t.find? (fun e => e.1 = p)).map Prod.snd

/-- A POSIX host: `rez.cpp` present, nothing set in the environment. -/
def worldPlain : World :=
  { env := envOf [], fs := fsOf [("rez.cpp".toList, Node.file [])], popen := fun _ => none }

/-- The configuration `Load` resolves on `worldPlain` in a non-MSVC build. -/
def configPlain : Config :=
  { debug := false, cache_dir_path := ".rez".toList, cache_file_path := ".rez/rez-env.txt".toList,
    windows := false, rez_definition_path := "rez.cpp".toList, rez_definition_lang := Lang.Cpp,
    compiler := "c++".toList, artifact_dir_path := ".rez/bin".toList,
    artifact_file_path := ".rez/bin/delegate-rez".toList,
    build_command := "c++ -o .rez/bin/delegate-rez \"rez.cpp\"".toList }

/-- A host detected as Windows on which the user forces clang++ through CXX. -/
def worldClangOnWindows : World :=
  { env := envOf [("COMSPEC".toList, "C:\\Windows\\system32\\cmd.exe".toList),
                  ("CXX".toList, "clang++".toList)],
    fs := fsOf [("rez.cpp".toList, Node.file []), ("rez.c".toList, Node.file [])],
    popen := fun _ => none }

/-- The configuration `Load` resolves on `worldClangOnWindows` in an MSVC build. -/
def configClangOnWindows : Config :=
  { debug := false, cache_dir_path := ".rez".toList, cache_file_path := ".rez\\rez-env.txt".toList,
    windows := true, rez_definition_path := "rez.cpp".toList, rez_definition_lang := Lang.Cpp,
    compiler := "clang++".toList, artifact_dir_path := ".rez\\bin".toList,
    artifact_file_path := ".rez\\bin\\delegate-rez.exe".toList,
    build_command := "clang++ -o .rez\\bin\\delegate-rez.exe \"rez.cpp\"".toList }

/-- A Windows host, MSVC build, on which the user forces clang++ by its full
path and adds an include directory; both texts hold colons. -/
def worldColonPaths : World :=
  { env := envOf [("COMSPEC".toList, "C:\\Windows\\system32\\cmd.exe".toList),
                  ("CXX".toList, "C:\\LLVM\\bin\\clang++.exe".toList),
                  ("CPPFLAGS".toList, "-IC:\\sdk\\include".toList)],
    fs := fsOf [("rez.cpp".toList, Node.file [])],
    popen := fun _ => none }

/-- The configuration `Load` resolves on `worldColonPaths` in an MSVC build. -/
def configColonPaths : Config :=
  { debug := false, cache_dir_path := ".rez".toList, cache_file_path := ".rez\\rez-env.txt".toList,
    windows := true, rez_definition_path := "rez.cpp".toList, rez_definition_lang := Lang.Cpp,
    compiler := "C:\\LLVM\\bin\\clang++.exe".toList, artifact_dir_path := ".rez\\bin".toList,
    artifact_file_path := ".rez\\bin\\delegate-rez.exe".toList,
    build_command :=
      "C:\\LLVM\\bin\\clang++.exe -o .rez\\bin\\delegate-rez.exe -IC:\\sdk\\include \"rez.cpp\"".toList }

/-- A POSIX host on which the user names the MSVC driver through CXX, with a
populated cache file, so that the bootstrap needs no query. -/
def worldClOnPosix : World :=
  { env := envOf [("CXX".toList, "cl".toList)],
    fs := fsOf [("rez.cpp".toList, Node.file []), (".rez".toList, Node.dir),
                (".rez/rez-env.txt".toList, Node.file "INCLUDE=/opt/msvc/include\n".toList)],
    popen := fun _ => none }

/-- The configuration `Load` resolves on `worldClOnPosix` in a non-MSVC build. -/
def configClOnPosix : Config :=
  { debug := false, cache_dir_path := ".rez".toList, cache_file_path := ".rez/rez-env.txt".toList,
    windows := false, rez_definition_path := "rez.cpp".toList, rez_definition_lang := Lang.Cpp,
    compiler := "cl".toList, artifact_dir_path := ".rez/bin".toList,
    artifact_file_path := ".rez/bin/delegate-rez".toList,
    build_command := "cl \"rez.cpp\" /link /out:.rez/bin/delegate-rez".toList }

/-- A POSIX host whose CPPFLAGS holds linker-style text. -/
def worldLinkFlag : World :=
  { env := envOf [("CPPFLAGS".toList, "/link /out:x".toList)],
    fs := fsOf [("rez.cpp".toList, Node.file [])],
    popen := fun _ => none }

/-- The configuration `Load` resolves on `worldLinkFlag` in a non-MSVC build. -/
def configLinkFlag : Config :=
  { debug := false, cache_dir_path := ".rez".toList, cache_file_path := ".rez/rez-env.txt".toList,
    windows := false, rez_definition_path := "rez.cpp".toList, rez_definition_lang := Lang.Cpp,
    compiler := "c++".toList, artifact_dir_path := ".rez/bin".toList,
    artifact_file_path := ".rez/bin/delegate-rez".toList,
    build_command := "c++ -o .rez/bin/delegate-rez /link /out:x \"rez.cpp\"".toList }

/-- A host with only a C definition file, CC set but empty, and COMSPEC absent. -/
def worldCOnly : World :=
  { env := envOf [("CC".toList, [])],
    fs := fsOf [("rez.c".toList, Node.file [])],
    popen := fun _ => none }

/-- The configuration `Load` resolves on `worldCOnly` in a non-MSVC build. -/
def configCOnly : Config :=
  { debug := false, cache_dir_path := ".rez".toList, cache_file_path := ".rez/rez-env.txt".toList,
    windows := false, rez_definition_path := "rez.c".toList, rez_definition_lang := Lang.C,
    compiler := "cc".toList, artifact_dir_path := ".rez/bin".toList,
    artifact_file_path := ".rez/bin/delegate-rez".toList,
    build_command := "cc -o .rez/bin/delegate-rez \"rez.c\"".toList }

/-- A Windows host without any definition file: COMSPEC and CXX are set and a
populated cache file exists. -/
def worldNoDefinition : World :=
  { env := envOf [("COMSPEC".toList, "cmd.exe".toList), ("CXX".toList, "cl".toList)],
    fs := fsOf [(".rez".toList, Node.dir), (".rez\\rez-env.txt".toList, Node.file "FOO=bar\n".toList)],
    popen := fun _ => some ("A=b\n".toList, 0) }

/-- A Windows host, MSVC build, whose populated cache file binds CPPFLAGS; the
environment itself sets no flags variable. -/
def worldCachedFlags : World :=
  { env := envOf [("COMSPEC".toList, "cmd.exe".toList)],
    fs := fsOf [("rez.cpp".toList, Node.file []), (".rez".toList, Node.dir),
                (".rez\\rez-env.txt".toList, Node.file "CPPFLAGS=/O2\n".toList)],
    popen := fun _ => none }

/-- The configuration `Load` resolves on `worldCachedFlags` in an MSVC build. -/
def configCachedFlags : Config :=
  { debug := false, cache_dir_path := ".rez".toList, cache_file_path := ".rez\\rez-env.txt".toList,
    windows := true, rez_definition_path := "rez.cpp".toList, rez_definition_lang := Lang.Cpp,
    compiler := "cl".toList, artifact_dir_path := ".rez\\bin".toList,
    artifact_file_path := ".rez\\bin\\delegate-rez.exe".toList,
    build_command := "cl /O2 \"rez.cpp\" /link /out:.rez\\bin\\delegate-rez.exe".toList }

/-- A POSIX host with CPPFLAGS and CXXFLAGS set and CFLAGS set as well. -/
def worldFlags : World :=
  { env := envOf [("CPPFLAGS".toList, "-DX".toList), ("CXXFLAGS".toList, "-O2 -g".toList),
                  ("CFLAGS".toList, "-std=c99".toList)],
    fs := fsOf [("rez.cpp".toList, Node.file [])],
    popen := fun _ => none }

/-- The configuration `Load` resolves on `worldFlags` in a non-MSVC build. -/
def configFlags : Config :=
  { debug := false, cache_dir_path := ".rez".toList, cache_file_path := ".rez/rez-env.txt".toList,
    windows := false, rez_definition_path := "rez.cpp".toList, rez_definition_lang := Lang.Cpp,
    compiler := "c++".toList, artifact_dir_path := ".rez/bin".toList,
    artifact_file_path := ".rez/bin/delegate-rez".toList,
    build_command := "c++ -o .rez/bin/delegate-rez -DX -O2 -g \"rez.cpp\"".toList }

/-- A configuration as `Load` has filled it when it calls `ApplyMSVCToolchain`:
the cache paths are set. -/
def configBoot (msc_ver : Bool) : Config :=
  { Config.init with cache_dir_path := CacheDir,
                     cache_file_path := pathJoin msc_ver CacheDir CacheFileBasename }

/-- A POSIX-built run whose cache file is populated with the line `FOO=bar`;
launching any command fails, so a run that succeeds has not queried. -/
def worldCacheHit : World :=
  { env := envOf [],
    fs := fsOf [(".rez".toList, Node.dir), (".rez/rez-env.txt".toList, Node.file "FOO=bar\n".toList)],
    popen := fun _ => none }

/-- A run that starts without cache directory and cache file; the query prints
one assignment and exits with success. -/
def worldNoCache : World :=
  { env := envOf [],
    fs := fsOf [("rez.cpp".toList, Node.file [])],
    popen := fun _ => some ("FOO=bar\n".toList, 0) }

/-- A run of an MSVC build on an existing empty cache file whose query prints a
banner, two assignments and a warning, then exits with success. -/
def worldQueryOk : World :=
  { env := envOf [("PATH".toList, "/usr/bin".toList)],
    fs := fsOf [(".rez".toList, Node.dir), (".rez\\rez-env.txt".toList, Node.file [])],
    popen := fun _ => some ("banner\nFOO=bar\nwarning\nINCLUDE=C:\\inc\n".toList, 0) }

/-- A run on an existing empty cache file whose query prints a line with a NUL
in front of its equals sign, then a plain assignment. -/
def worldNulLine : World :=
  { env := envOf [],
    fs := fsOf [(".rez".toList, Node.dir), (".rez\\rez-env.txt".toList, Node.file [])],
    popen := fun _ => some ("A\x00=b\nCC=d\n".toList, 0) }

/-- One line of query output that is longer than the line buffer: 32759 letters
followed by `b=c` and a newline. -/
def longLine : Str :=
  List.replicate 32759 'a' ++ "b=c\n".toList

/-- A run on an existing empty cache file whose query prints `longLine`. -/
def worldLongLine : World :=
  { env := envOf [],
    fs := fsOf [(".rez".toList, Node.dir), (".rez\\rez-env.txt".toList, Node.file [])],
    popen := fun _ => some (longLine, 0) }

end rez

namespace rez

/-! ## Results on `Config::Load` -/

theorem Load_none (m : Bool) (cfg : Config) (w : World) (h : selectDefinition w = none) :
    Load m cfg w =
      (Except.error "error locating a task definition file rez.\x7bcpp,c\x7d".toList, w) := by
  unfold selectDefinition at h
  unfold Load
  simp only [h]

theorem Load_some (m : Bool) (cfg : Config) (w : World) (d : Str) (l : Lang)
    (hd : selectDefinition w = some (d, l)) :
    Load m cfg w =
      match bootstrap m cfg w d l with
      | (Except.error e, w1) => (Except.error e, w1)
      | (Except.ok _, w1) =>
        (Except.ok
          { debug := cfg.debug, cache_dir_path := CacheDir,
            cache_file_path := pathJoin m CacheDir CacheFileBasename,
            windows := DetectWindowsEnvironment w, rez_definition_path := d,
            rez_definition_lang := l, compiler := resolveCompiler w l,
            artifact_dir_path := pathJoin m CacheDir ArtifactDirBasename,
            artifact_file_path := artifactFile m w,
            build_command := assemble (resolveCompiler w l) l
              (flagsOf w1 "CPPFLAGS".toList)
              (if l = Lang.Cpp then flagsOf w1 "CXXFLAGS".toList else [])
              (if l = Lang.Cpp then [] else flagsOf w1 "CFLAGS".toList)
              d (artifactFile m w) }, w1) := by
  unfold selectDefinition at hd
  unfold Load bootstrap resolveCompiler artifactFile
  simp only [hd]

/-- Every field of a configuration that `Load` returns, in terms of the world
before the call and the world the call leaves behind. -/
theorem Load_ok (m : Bool) (cfg c : Config) (w : World) (h : (Load m cfg w).1 = Except.ok c) :
    ∃ d l, selectDefinition w = some (d, l) ∧
      (bootstrap m cfg w d l).1 = Except.ok () ∧
      (Load m cfg w).2 = (bootstrap m cfg w d l).2 ∧
      c.windows = DetectWindowsEnvironment w ∧
      c.rez_definition_path = d ∧ c.rez_definition_lang = l ∧
      c.compiler = resolveCompiler w l ∧
      c.artifact_file_path = artifactFile m w ∧
      c.build_command = assemble (resolveCompiler w l) l
        (flagsOf (Load m cfg w).2 "CPPFLAGS".toList)
        (if l = Lang.Cpp then flagsOf (Load m cfg w).2 "CXXFLAGS".toList else [])
        (if l = Lang.Cpp then [] else flagsOf (Load m cfg w).2 "CFLAGS".toList)
        d (artifactFile m w) := by
  cases hd : selectDefinition w with
  | none => rw [Load_none m cfg w hd] at h; cases h
  | some dl =>
    obtain ⟨d, l⟩ := dl
    refine ⟨d, l, rfl, ?_⟩
    rw [Load_some m cfg w d l hd] at h ⊢
    rcases hb : bootstrap m cfg w d l with ⟨r, w1⟩
    rw [hb] at h
    cases r with
    | error e => cases h
    | ok u =>
      simp only at h ⊢
      injection h with h
      subst h
      simp

/-- The definition file is one of the two fixed names, with its language. -/
theorem selectDefinition_cases (w : World) (d : Str) (l : Lang)
    (h : selectDefinition w = some (d, l)) :
    (fsExists w RezDefinitionPathCpp = true ∧ d = RezDefinitionPathCpp ∧ l = Lang.Cpp) ∨
    (fsExists w RezDefinitionPathCpp = false ∧ fsExists w RezDefinitionPathC = true ∧
      d = RezDefinitionPathC ∧ l = Lang.C) := by
  unfold selectDefinition at h
  by_cases h1 : fsExists w RezDefinitionPathCpp = true
  · simp [h1] at h
    exact Or.inl ⟨h1, h.1.symm, h.2.symm⟩
  · by_cases h2 : fsExists w RezDefinitionPathC = true
    · simp [h1, h2] at h
      exact Or.inr ⟨by simpa using h1, h2, h.1.symm, h.2.symm⟩
    · simp [h1, h2] at h

theorem overrideCompiler_set (w : World) (key compiler s : Str)
    (h : w.env key = some s) (hs : s ≠ []) : overrideCompiler w key compiler = s := by
  unfold overrideCompiler GetEnvironmentVariable
  rw [h]
  simp [hs]

theorem overrideCompiler_unset (w : World) (key compiler : Str)
    (h : w.env key = none ∨ w.env key = some []) : overrideCompiler w key compiler = compiler := by
  unfold overrideCompiler GetEnvironmentVariable
  rcases h with h | h <;> simp [h]

theorem resolveCompiler_Cpp (w : World) :
    resolveCompiler w Lang.Cpp = overrideCompiler w "CXX".toList
      (if DetectWindowsEnvironment w then DefaultCompilerWindows else DefaultCompilerUnixCpp) := by
  simp [resolveCompiler]

theorem resolveCompiler_C (w : World) :
    resolveCompiler w Lang.C = overrideCompiler w "CC".toList
      (if DetectWindowsEnvironment w then DefaultCompilerWindows else DefaultCompilerUnixC) := by
  simp [resolveCompiler]

/-- C6: when neither `rez.cpp` nor `rez.c` exists, `Load` raises the
definition-not-found error whatever the environment holds, and the world it
leaves behind (process environment, cache file, every other file) is the world
it started in: the toolchain bootstrap has not run. -/
theorem C6_load_fails_without_definition (m : Bool) (cfg : Config) (w : World)
    (hcpp : fsExists w RezDefinitionPathCpp = false)
    (hc : fsExists w RezDefinitionPathC = false) :
    Load m cfg w =
      (Except.error "error locating a task definition file rez.\x7bcpp,c\x7d".toList, w) := by
  apply Load_none
  unfold selectDefinition
  simp [hcpp, hc]

theorem C6_load_fails_without_definition_witness :
    fsExists worldNoDefinition RezDefinitionPathCpp = false ∧
    fsExists worldNoDefinition RezDefinitionPathC = false ∧
    Load true Config.init worldNoDefinition =
      (Except.error "error locating a task definition file rez.\x7bcpp,c\x7d".toList,
        worldNoDefinition) :=
  ⟨by decide, by decide,
    C6_load_fails_without_definition true Config.init worldNoDefinition (by decide) (by decide)⟩

/-- C4: in every world in which `Load` succeeds, a non-empty CXX is the
compiler when the language is C++ and a non-empty CC is the compiler when the
language is C, whether or not COMSPEC is present. -/
theorem C4_nonempty_override_wins (m : Bool) (cfg c : Config) (w : World) (s : Str)
    (h : (Load m cfg w).1 = Except.ok c) (hs : s ≠ []) :
    (c.rez_definition_lang = Lang.Cpp → w.env "CXX".toList = some s → c.compiler = s) ∧
    (c.rez_definition_lang = Lang.C → w.env "CC".toList = some s → c.compiler = s) := by
  obtain ⟨d, l, -, -, -, -, -, hl, hc, -, -⟩ := Load_ok m cfg c w h
  rw [hc, hl]
  constructor
  · intro hl1 hx
    rw [hl1, resolveCompiler_Cpp]
    exact overrideCompiler_set w _ _ s hx hs
  · intro hl1 hx
    rw [hl1, resolveCompiler_C]
    exact overrideCompiler_set w _ _ s hx hs

theorem C4_nonempty_override_wins_witness :
    (Load true Config.init worldClangOnWindows).1 = Except.ok configClangOnWindows ∧
    "clang++".toList ≠ [] ∧
    (DetectWindowsEnvironment worldClangOnWindows = true) ∧
    ((configClangOnWindows.rez_definition_lang = Lang.Cpp →
        worldClangOnWindows.env "CXX".toList = some "clang++".toList →
        configClangOnWindows.compiler = "clang++".toList) ∧
     (configClangOnWindows.rez_definition_lang = Lang.C →
        worldClangOnWindows.env "CC".toList = some "clang++".toList →
        configClangOnWindows.compiler = "clang++".toList)) :=
  ⟨rfl, by decide, by decide,
    C4_nonempty_override_wins true Config.init configClangOnWindows worldClangOnWindows
      "clang++".toList rfl (by decide)⟩

/-- C5: in every world in which `Load` succeeds, if the override of the
selected language (CXX when `rez.cpp` exists, else CC) is unset or empty, the
compiler is `cl` when COMSPEC is present, else `c++` for `rez.cpp` and `cc` for
`rez.c`; and whenever `rez.cpp` exists the language is C++ and the definition
path is `rez.cpp`, also when `rez.c` exists too. -/
theorem C5_default_compiler_kept (m : Bool) (cfg c : Config) (w : World)
    (h : (Load m cfg w).1 = Except.ok c) :
    ((if fsExists w RezDefinitionPathCpp = true
        then (w.env "CXX".toList = none ∨ w.env "CXX".toList = some [])
        else (w.env "CC".toList = none ∨ w.env "CC".toList = some [])) →
      ((w.env "COMSPEC".toList).isSome = true → c.compiler = "cl".toList) ∧
      ((w.env "COMSPEC".toList).isSome = false →
        (c.rez_definition_path = "rez.cpp".toList ∧ c.compiler = "c++".toList) ∨
        (c.rez_definition_path = "rez.c".toList ∧ c.compiler = "cc".toList))) ∧
    (fsExists w RezDefinitionPathCpp = true →
      c.rez_definition_lang = Lang.Cpp ∧ c.rez_definition_path = "rez.cpp".toList) ∧
    (fsExists w RezDefinitionPathCpp = false →
      c.rez_definition_lang = Lang.C ∧ c.rez_definition_path = "rez.c".toList) := by
  obtain ⟨d, l, hsel, -, -, -, hd, hl, hc, -, -⟩ := Load_ok m cfg c w h
  rw [hc, hl, hd]
  rcases selectDefinition_cases w d l hsel with ⟨h1, rfl, rfl⟩ | ⟨h1, h2, rfl, rfl⟩
  · refine ⟨?_, fun _ => ⟨rfl, rfl⟩, fun h0 => by simp [h1] at h0⟩
    intro hov
    simp only [h1, if_true] at hov
    rw [resolveCompiler_Cpp, overrideCompiler_unset w _ _ hov]
    unfold DetectWindowsEnvironment GetEnvironmentVariable
    constructor
    · intro hw
      rw [hw]
      rfl
    · intro hw
      rw [hw]
      exact Or.inl ⟨rfl, rfl⟩
  · refine ⟨?_, fun h0 => by simp [h1] at h0, fun _ => ⟨rfl, rfl⟩⟩
    intro hov
    simp only [h1] at hov
    simp only [Bool.false_eq_true, if_false] at hov
    rw [resolveCompiler_C, overrideCompiler_unset w _ _ hov]
    unfold DetectWindowsEnvironment GetEnvironmentVariable
    constructor
    · intro hw
      rw [hw]
      rfl
    · intro hw
      rw [hw]
      exact Or.inr ⟨rfl, rfl⟩

theorem C5_default_compiler_kept_witness :
    (Load false Config.init worldCOnly).1 = Except.ok configCOnly ∧
    (((if fsExists worldCOnly RezDefinitionPathCpp = true
        then (worldCOnly.env "CXX".toList = none ∨ worldCOnly.env "CXX".toList = some [])
        else (worldCOnly.env "CC".toList = none ∨ worldCOnly.env "CC".toList = some [])) →
      ((worldCOnly.env "COMSPEC".toList).isSome = true → configCOnly.compiler = "cl".toList) ∧
      ((worldCOnly.env "COMSPEC".toList).isSome = false →
        (configCOnly.rez_definition_path = "rez.cpp".toList ∧
          configCOnly.compiler = "c++".toList) ∨
        (configCOnly.rez_definition_path = "rez.c".toList ∧
          configCOnly.compiler = "cc".toList))) ∧
    (fsExists worldCOnly RezDefinitionPathCpp = true →
      configCOnly.rez_definition_lang = Lang.Cpp ∧
        configCOnly.rez_definition_path = "rez.cpp".toList) ∧
    (fsExists worldCOnly RezDefinitionPathCpp = false →
      configCOnly.rez_definition_lang = Lang.C ∧
        configCOnly.rez_definition_path = "rez.c".toList)) :=
  ⟨rfl, C5_default_compiler_kept false Config.init configCOnly worldCOnly rfl⟩

/-- C3: on a POSIX host with `rez.cpp` present, COMSPEC absent and CXX,
CPPFLAGS, CXXFLAGS unset, `Load` succeeds and the build command ends in the
definition path wrapped in double quotes (a `std::filesystem::path` is streamed
through `std::quoted`), so it is not the four plain words compiler, `-o`,
artifact path, `rez.cpp`. -/
theorem C3_definition_path_is_streamed_quoted :
    (Load false Config.init worldPlain).1 = Except.ok configPlain ∧
    fsExists worldPlain RezDefinitionPathCpp = true ∧
    worldPlain.env "COMSPEC".toList = none ∧ worldPlain.env "CXX".toList = none ∧
    worldPlain.env "CPPFLAGS".toList = none ∧ worldPlain.env "CXXFLAGS".toList = none ∧
    configPlain.artifact_file_path = ".rez/bin/delegate-rez".toList ∧
    configPlain.build_command = "c++ -o .rez/bin/delegate-rez \"rez.cpp\"".toList ∧
    configPlain.build_command ≠
      "c++ -o ".toList ++ configPlain.artifact_file_path ++ " ".toList ++ "rez.cpp".toList :=
  ⟨rfl, by decide, by decide, by decide, by decide, by decide, rfl, rfl, by decide⟩

/-! ### Shape of the assembled command -/

theorem flagsOf_segment (w : World) (key : Str) :
    (if flagsOf w key ≠ [] then flagsOf w key ++ " ".toList else []) = flagWord (w.env key) := by
  unfold flagsOf GetEnvironmentVariable flagWord
  cases w.env key with
  | none => simp
  | some x => by_cases hx : x = [] <;> simp [hx]

/-- The flags part of the command, for the flag values `Load` passes in. -/
theorem assemble_eq (w1 : World) (compiler : Str) (l : Lang) (d art : Str) :
    assemble compiler l (flagsOf w1 "CPPFLAGS".toList)
        (if l = Lang.Cpp then flagsOf w1 "CXXFLAGS".toList else [])
        (if l = Lang.Cpp then [] else flagsOf w1 "CFLAGS".toList) d art =
      if compiler = DefaultCompilerWindows then
        compiler ++ " ".toList ++
          (flagWord (w1.env "CPPFLAGS".toList) ++ flagWord (w1.env (langFlagsVar l))) ++
          ostreamPath d ++ " /link /out:".toList ++ art
      else
        compiler ++ " ".toList ++ "-o ".toList ++ art ++ " ".toList ++
          (flagWord (w1.env "CPPFLAGS".toList) ++ flagWord (w1.env (langFlagsVar l))) ++
          ostreamPath d := by
  have hseg :
      ((if flagsOf w1 "CPPFLAGS".toList ≠ [] then flagsOf w1 "CPPFLAGS".toList ++ " ".toList
          else []) ++
        (if l = Lang.Cpp ∧ (if l = Lang.Cpp then flagsOf w1 "CXXFLAGS".toList else []) ≠ []
          then (if l = Lang.Cpp then flagsOf w1 "CXXFLAGS".toList else []) ++ " ".toList
         else if l = Lang.C ∧ (if l = Lang.Cpp then [] else flagsOf w1 "CFLAGS".toList) ≠ []
          then (if l = Lang.Cpp then [] else flagsOf w1 "CFLAGS".toList) ++ " ".toList
         else [])) =
      flagWord (w1.env "CPPFLAGS".toList) ++ flagWord (w1.env (langFlagsVar l)) := by
    rw [flagsOf_segment]
    congr 1
    cases l with
    | Cpp =>
      rw [← flagsOf_segment]
      simp [langFlagsVar]
    | C =>
      rw [← flagsOf_segment]
      simp [langFlagsVar]
  unfold assemble
  simp only [hseg]

/-- Without bootstrap the world is untouched. -/
theorem bootstrap_other (m : Bool) (cfg : Config) (w : World) (d : Str) (l : Lang)
    (h : resolveCompiler w l ≠ DefaultCompilerWindows) : bootstrap m cfg w d l = (Except.ok (), w) := by
  unfold bootstrap
  simp [h]

/-- The build command of a successful `Load`, by compiler family, with the flag
values read from the world the call leaves behind. -/
theorem Load_build_command (m : Bool) (cfg c : Config) (w : World)
    (h : (Load m cfg w).1 = Except.ok c) :
    (c.compiler = DefaultCompilerWindows →
      c.build_command =
        c.compiler ++ " ".toList ++
          (flagWord ((Load m cfg w).2.env "CPPFLAGS".toList) ++
            flagWord ((Load m cfg w).2.env (langFlagsVar c.rez_definition_lang))) ++
          ostreamPath c.rez_definition_path ++ " /link /out:".toList ++ c.artifact_file_path) ∧
    (c.compiler ≠ DefaultCompilerWindows →
      (Load m cfg w).2 = w ∧
      c.build_command =
        c.compiler ++ " ".toList ++ "-o ".toList ++ c.artifact_file_path ++ " ".toList ++
          (flagWord (w.env "CPPFLAGS".toList) ++
            flagWord (w.env (langFlagsVar c.rez_definition_lang))) ++
          ostreamPath c.rez_definition_path) := by
  obtain ⟨d, l, -, -, hw, -, hd, hl, hc, ha, hb⟩ := Load_ok m cfg c w h
  rw [assemble_eq] at hb
  rw [hb, hc, hl, hd, ha]
  constructor
  · intro hcl
    rw [if_pos hcl]
  · intro hcl
    have hw1 : (Load m cfg w).2 = w := by rw [hw, bootstrap_other m cfg w d l hcl]
    rw [if_neg hcl, hw1]
    exact ⟨rfl, rfl⟩

theorem flagWord_unset (o : Option Str) (h : o = none ∨ o = some []) : flagWord o = [] := by
  rcases h with h | h <;> simp [h, flagWord]

/-- In every world that meets the preconditions of the plain POSIX command
(`rez.cpp` present, COMSPEC absent, CXX, CPPFLAGS and CXXFLAGS unset or empty),
`Load` succeeds and the command ends in the quoted definition path. -/
theorem Load_plain_command (m : Bool) (cfg : Config) (w : World)
    (hdef : fsExists w RezDefinitionPathCpp = true)
    (hcom : w.env "COMSPEC".toList = none)
    (hcxx : w.env "CXX".toList = none ∨ w.env "CXX".toList = some [])
    (hcpp : w.env "CPPFLAGS".toList = none ∨ w.env "CPPFLAGS".toList = some [])
    (hfl : w.env "CXXFLAGS".toList = none ∨ w.env "CXXFLAGS".toList = some []) :
    ∃ c, (Load m cfg w).1 = Except.ok c ∧
      c.compiler = "c++".toList ∧
      c.build_command =
        "c++ -o ".toList ++ c.artifact_file_path ++ " \"rez.cpp\"".toList := by
  have hsel : selectDefinition w = some (RezDefinitionPathCpp, Lang.Cpp) := by
    simp [selectDefinition, hdef]
  have hcomp : resolveCompiler w Lang.Cpp = "c++".toList := by
    rw [resolveCompiler_Cpp, overrideCompiler_unset w _ _ hcxx]
    simp only [DetectWindowsEnvironment, GetEnvironmentVariable, hcom]
    rfl
  have hne : resolveCompiler w Lang.Cpp ≠ DefaultCompilerWindows := by
    rw [hcomp]
    decide
  have hb := bootstrap_other m cfg w RezDefinitionPathCpp Lang.Cpp hne
  rw [Load_some m cfg w _ _ hsel, hb]
  refine ⟨_, rfl, hcomp, (assemble_eq w _ Lang.Cpp _ _).trans ?_⟩
  rw [if_neg hne, hcomp, flagWord_unset _ hcpp]
  have hl : langFlagsVar Lang.Cpp = "CXXFLAGS".toList := rfl
  rw [hl, flagWord_unset _ hfl]
  have hq : ostreamPath RezDefinitionPathCpp = "\"rez.cpp\"".toList := by decide
  rw [hq]
  simp only [List.append_nil, List.append_assoc]
  rfl

/-- C1 fails as stated: (a) with COMSPEC present and CXX=clang++ the command has
the POSIX form and does not end with the MSVC output option; (b) with COMSPEC
absent and CXX=cl the command has the MSVC form; (c) with COMSPEC absent the
text of CPPFLAGS can bring the MSVC option into a POSIX-form command. -/
theorem C1_counterexample :
    ((Load true Config.init worldClangOnWindows).1 = Except.ok configClangOnWindows ∧
      (worldClangOnWindows.env "COMSPEC".toList).isSome = true ∧
      configClangOnWindows.windows = true ∧
      ¬ ((" /link /out:".toList ++ configClangOnWindows.artifact_file_path) <:+
          configClangOnWindows.build_command)) ∧
    ((Load false Config.init worldClOnPosix).1 = Except.ok configClOnPosix ∧
      worldClOnPosix.env "COMSPEC".toList = none ∧
      configClOnPosix.windows = false ∧
      "/link /out:".toList <:+: configClOnPosix.build_command ∧
      ¬ (("-o ".toList ++ configClOnPosix.artifact_file_path) <:+:
          configClOnPosix.build_command)) ∧
    ((Load false Config.init worldLinkFlag).1 = Except.ok configLinkFlag ∧
      worldLinkFlag.env "COMSPEC".toList = none ∧
      "/link /out:".toList <:+: configLinkFlag.build_command) :=
  ⟨⟨rfl, by decide, rfl, by decide⟩, ⟨rfl, by decide, rfl, by decide, by decide⟩,
    ⟨rfl, by decide, by decide⟩⟩

/-! ### Where the MSVC output option can occur in a POSIX-form command -/

/-- A text that does not hold a character cannot reach across an occurrence of
that character. -/
theorem infix_split (p a b : Str) (c : Char) (hc : c ∉ p) (h : p <:+: a ++ c :: b) :
    p <:+: a ∨ p <:+: b := by
  obtain ⟨s, t, hst⟩ := h
  rw [List.append_assoc] at hst
  rcases List.append_eq_append_iff.mp hst with ⟨a1, ha, hb⟩ | ⟨c1, hs, hb⟩
  · rcases List.append_eq_append_iff.mp hb with ⟨a2, ha2, hb2⟩ | ⟨c2, hp, hb2⟩
    · left
      exact ⟨s, a2, by rw [ha, ha2, List.append_assoc]⟩
    · cases c2 with
      | nil =>
        left
        refine ⟨s, [], ?_⟩
        rw [ha, hp]
        simp
      | cons x xs =>
        simp only [List.cons_append, List.cons.injEq] at hb2
        exfalso
        apply hc
        rw [hp, hb2.1]
        simp
  · cases c1 with
    | nil =>
      simp only [List.nil_append] at hb
      cases p with
      | nil => left; exact List.nil_infix
      | cons x xs =>
        simp only [List.cons_append, List.cons.injEq] at hb
        exfalso
        apply hc
        rw [hb.1]
        simp
    | cons x xs =>
      simp only [List.cons_append, List.cons.injEq] at hb
      right
      exact ⟨xs, t, by rw [hb.2, List.append_assoc]⟩

/-- An occurrence in front of a character the text does not end with. -/
theorem infix_drop_last (p a : Str) (c : Char) (hp : p ≠ []) (hc : p.getLast? ≠ some c)
    (h : p <:+: a ++ [c]) : p <:+: a := by
  obtain ⟨s, t, hst⟩ := h
  rcases List.eq_nil_or_concat t with ht | ⟨t1, d, ht⟩
  · subst ht
    exfalso
    apply hc
    rw [List.append_nil] at hst
    have := congrArg List.getLast? hst
    rw [List.getLast?_append_of_ne_nil _ hp] at this
    rw [this]
    simp
  · rw [ht, List.concat_eq_append, ← List.append_assoc] at hst
    have := List.append_inj_left' hst rfl
    exact ⟨s, t1, this⟩

/-- An occurrence behind a character the text does not start with. -/
theorem infix_drop_head (p b : Str) (c : Char) (hp : p ≠ []) (hc : p.head? ≠ some c)
    (h : p <:+: c :: b) : p <:+: b := by
  rcases List.infix_cons_iff.mp h with ⟨t, ht⟩ | h2
  · exfalso
    cases p with
    | nil => exact hp rfl
    | cons x xs =>
      simp only [List.cons_append, List.cons.injEq] at ht
      apply hc
      simp [ht.1]
  · exact h2

/-- The fixed parts of a POSIX-form command leave no room for the MSVC output
option: an occurrence lies in the compiler name or in the flag segment. -/
theorem linkOut_core (X S A0 Q0 : Str) (z : Char) (hz : z ∉ linkOut)
    (hA0 : ¬ linkOut <:+: "o ".toList ++ A0) (hQ0 : ¬ linkOut <:+: Q0)
    (h : linkOut <:+: (X ++ [' ']) ++ '-' :: (("o ".toList ++ A0) ++ z :: (' ' :: (S ++ '"' :: Q0)))) :
    linkOut <:+: X ∨ linkOut <:+: S := by
  rcases infix_split linkOut _ _ '-' (by decide) h with h1 | h1
  · left
    exact infix_drop_last linkOut X ' ' (by decide) (by decide) h1
  · rcases infix_split linkOut _ _ z hz h1 with h2 | h2
    · exact absurd h2 hA0
    · have h3 := infix_drop_head linkOut _ ' ' (by decide) (by decide) h2
      rcases infix_split linkOut _ _ '"' (by decide) h3 with h4 | h4
      · right
        exact h4
      · exact absurd h4 hQ0

theorem artifactFile_parts (m : Bool) (w : World) :
    ∃ A0 z, artifactFile m w = A0 ++ [z] ∧ z ∉ linkOut ∧ ¬ linkOut <:+: "o ".toList ++ A0 := by
  unfold artifactFile
  cases m <;> cases DetectWindowsEnvironment w
  · exact ⟨".rez/bin/delegate-re".toList, 'z', by decide, by decide, by decide⟩
  · exact ⟨".rez/bin/delegate-rez.ex".toList, 'e', by decide, by decide, by decide⟩
  · exact ⟨".rez\\bin\\delegate-re".toList, 'z', by decide, by decide, by decide⟩
  · exact ⟨".rez\\bin\\delegate-rez.ex".toList, 'e', by decide, by decide, by decide⟩

theorem ostreamPath_parts (d : Str) (hd : d = RezDefinitionPathCpp ∨ d = RezDefinitionPathC) :
    ∃ Q0, ostreamPath d = '"' :: Q0 ∧ ¬ linkOut <:+: Q0 := by
  rcases hd with rfl | rfl
  · exact ⟨"rez.cpp\"".toList, by decide, by decide⟩
  · exact ⟨"rez.c\"".toList, by decide, by decide⟩

/-- A POSIX-form command holds the MSVC output option exactly when the compiler
name or the flag segment holds it. -/
theorem linkOut_posix (m : Bool) (w : World) (X S d : Str)
    (hd : d = RezDefinitionPathCpp ∨ d = RezDefinitionPathC) :
    linkOut <:+: X ++ " ".toList ++ "-o ".toList ++ artifactFile m w ++ " ".toList ++ S ++
        ostreamPath d ↔
      linkOut <:+: X ∨ linkOut <:+: S := by
  constructor
  · intro h
    obtain ⟨A0, z, hA, hz, hA0⟩ := artifactFile_parts m w
    obtain ⟨Q0, hQ, hQ0⟩ := ostreamPath_parts d hd
    apply linkOut_core X S A0 Q0 z hz hA0 hQ0
    rw [hA, hQ] at h
    have e : X ++ " ".toList ++ "-o ".toList ++ (A0 ++ [z]) ++ " ".toList ++ S ++ '"' :: Q0 =
        (X ++ [' ']) ++ '-' :: (("o ".toList ++ A0) ++ z :: (' ' :: (S ++ '"' :: Q0))) := by
      simp
    rw [← e]
    exact h
  · rintro (⟨s, t, h⟩ | ⟨s, t, h⟩)
    · refine ⟨s, t ++ (" ".toList ++ "-o ".toList ++ artifactFile m w ++ " ".toList ++ S ++
        ostreamPath d), ?_⟩
      rw [← h]
      simp only [List.append_assoc]
    · refine ⟨X ++ " ".toList ++ "-o ".toList ++ artifactFile m w ++ " ".toList ++ s,
        t ++ ostreamPath d, ?_⟩
      rw [← h]
      simp only [List.append_assoc]

/-- C1 (amended): in every world in which `Load` succeeds, `windows` is true
exactly when COMSPEC is present, and the command family follows the resolved
compiler: when the compiler is not `cl` the command contains `-o ` followed by
the artifact path, and contains `/link /out:` only where the compiler name or
the flag segment (F(CPPFLAGS) followed by F(L)) already contains that text;
when the compiler is `cl` the command ends with ` /link /out:` followed by the
artifact path. When the override of the selected language is unset or empty,
the compiler is `cl` exactly when COMSPEC is present, so the marker then
decides the family. -/
theorem C1_family_follows_compiler (m : Bool) (cfg c : Config) (w : World)
    (h : (Load m cfg w).1 = Except.ok c) :
    c.windows = (w.env "COMSPEC".toList).isSome ∧
    (c.compiler ≠ "cl".toList →
      ("-o ".toList ++ c.artifact_file_path) <:+: c.build_command ∧
      ("/link /out:".toList <:+: c.build_command ↔
        "/link /out:".toList <:+: c.compiler ∨
        "/link /out:".toList <:+: flagWord (w.env "CPPFLAGS".toList) ++
          flagWord (w.env (langFlagsVar c.rez_definition_lang)))) ∧
    (c.compiler = "cl".toList →
      (" /link /out:".toList ++ c.artifact_file_path) <:+ c.build_command) ∧
    ((if c.rez_definition_lang = Lang.Cpp
        then (w.env "CXX".toList = none ∨ w.env "CXX".toList = some [])
        else (w.env "CC".toList = none ∨ w.env "CC".toList = some [])) →
      (c.compiler = "cl".toList ↔ (w.env "COMSPEC".toList).isSome = true)) := by
  have hbc := Load_build_command m cfg c w h
  obtain ⟨d, l, hsel, -, -, hwin, hd, hl, hc, ha, -⟩ := Load_ok m cfg c w h
  refine ⟨hwin, ?_, ?_, ?_⟩
  · intro hcl
    obtain ⟨-, hb⟩ := hbc.2 hcl
    constructor
    · rw [hb]
      refine ⟨c.compiler ++ " ".toList, " ".toList ++
        (flagWord (w.env "CPPFLAGS".toList) ++
          flagWord (w.env (langFlagsVar c.rez_definition_lang))) ++
        ostreamPath c.rez_definition_path, ?_⟩
      simp only [List.append_assoc]
    · have hdd : c.rez_definition_path = RezDefinitionPathCpp ∨
          c.rez_definition_path = RezDefinitionPathC := by
        rw [hd]
        rcases selectDefinition_cases w d l hsel with ⟨-, e, -⟩ | ⟨-, -, e, -⟩
        · exact Or.inl e
        · exact Or.inr e
      rw [hb, ha]
      exact linkOut_posix m w c.compiler _ c.rez_definition_path hdd
  · intro hcl
    rw [hbc.1 hcl]
    refine ⟨c.compiler ++ " ".toList ++
      (flagWord ((Load m cfg w).2.env "CPPFLAGS".toList) ++
        flagWord ((Load m cfg w).2.env (langFlagsVar c.rez_definition_lang))) ++
      ostreamPath c.rez_definition_path, ?_⟩
    simp only [List.append_assoc]
  · intro hov
    rw [hc]
    unfold DetectWindowsEnvironment GetEnvironmentVariable at hwin
    rw [hl] at hov
    cases l with
    | Cpp =>
      simp only [if_true] at hov
      rw [resolveCompiler_Cpp, overrideCompiler_unset w _ _ hov]
      unfold DetectWindowsEnvironment GetEnvironmentVariable
      cases (w.env "COMSPEC".toList).isSome <;> decide
    | C =>
      simp only [reduceCtorEq, if_false] at hov
      rw [resolveCompiler_C, overrideCompiler_unset w _ _ hov]
      unfold DetectWindowsEnvironment GetEnvironmentVariable
      cases (w.env "COMSPEC".toList).isSome <;> decide

set_option maxRecDepth 100000 in
theorem C1_family_follows_compiler_witness :
    (Load true Config.init worldColonPaths).1 = Except.ok configColonPaths ∧
    ¬ ("/link /out:".toList <:+: configColonPaths.build_command) ∧
    (configColonPaths.windows = (worldColonPaths.env "COMSPEC".toList).isSome ∧
    (configColonPaths.compiler ≠ "cl".toList →
      ("-o ".toList ++ configColonPaths.artifact_file_path) <:+:
        configColonPaths.build_command ∧
      ("/link /out:".toList <:+: configColonPaths.build_command ↔
        "/link /out:".toList <:+: configColonPaths.compiler ∨
        "/link /out:".toList <:+: flagWord (worldColonPaths.env "CPPFLAGS".toList) ++
          flagWord (worldColonPaths.env (langFlagsVar configColonPaths.rez_definition_lang)))) ∧
    (configColonPaths.compiler = "cl".toList →
      (" /link /out:".toList ++ configColonPaths.artifact_file_path) <:+
        configColonPaths.build_command) ∧
    ((if configColonPaths.rez_definition_lang = Lang.Cpp
        then (worldColonPaths.env "CXX".toList = none ∨
          worldColonPaths.env "CXX".toList = some [])
        else (worldColonPaths.env "CC".toList = none ∨
          worldColonPaths.env "CC".toList = some [])) →
      (configColonPaths.compiler = "cl".toList ↔
        (worldColonPaths.env "COMSPEC".toList).isSome = true))) :=
  ⟨rfl, by decide,
    C1_family_follows_compiler true Config.init configColonPaths worldColonPaths rfl⟩

/-- C9 fails as stated: in an MSVC build on a Windows host whose environment
sets neither CPPFLAGS nor CXXFLAGS, a cache line `CPPFLAGS=/O2` is applied by
the bootstrap before the flags are read, and `/O2 ` appears in the command. -/
theorem C9_counterexample :
    (Load true Config.init worldCachedFlags).1 = Except.ok configCachedFlags ∧
    worldCachedFlags.env "CPPFLAGS".toList = none ∧
    worldCachedFlags.env "CXXFLAGS".toList = none ∧
    configCachedFlags.build_command =
      "cl /O2 \"rez.cpp\" /link /out:.rez\\bin\\delegate-rez.exe".toList ∧
    configCachedFlags.build_command ≠
      configCachedFlags.compiler ++ " ".toList ++
        (flagWord (worldCachedFlags.env "CPPFLAGS".toList) ++
          flagWord (worldCachedFlags.env (langFlagsVar configCachedFlags.rez_definition_lang))) ++
        ostreamPath configCachedFlags.rez_definition_path ++ " /link /out:".toList ++
        configCachedFlags.artifact_file_path ∧
    configCachedFlags.build_command ≠
      configCachedFlags.compiler ++ " ".toList ++
        (flagWord (worldCachedFlags.env "CPPFLAGS".toList) ++
          flagWord (worldCachedFlags.env (langFlagsVar configCachedFlags.rez_definition_lang))) ++
        configCachedFlags.rez_definition_path ++ " /link /out:".toList ++
        configCachedFlags.artifact_file_path :=
  ⟨rfl, by decide, by decide, rfl, by decide, by decide⟩

/-- C9 (amended): in every world in which `Load` succeeds, the flag segment of
the command is F(CPPFLAGS) followed by F(L), with L the flags variable of the
selected language only, where the values are those of the process environment
when the command is assembled: the environment the call leaves behind, which
is the environment of the call whenever the compiler is not `cl`. The segment
stands right before the definition path as it is streamed into the command. -/
theorem C9_flag_segment (m : Bool) (cfg c : Config) (w : World)
    (h : (Load m cfg w).1 = Except.ok c) :
    (c.compiler = DefaultCompilerWindows →
      c.build_command =
        c.compiler ++ " ".toList ++
          (flagWord ((Load m cfg w).2.env "CPPFLAGS".toList) ++
            flagWord ((Load m cfg w).2.env (langFlagsVar c.rez_definition_lang))) ++
          ostreamPath c.rez_definition_path ++ " /link /out:".toList ++ c.artifact_file_path) ∧
    (c.compiler ≠ DefaultCompilerWindows →
      (Load m cfg w).2 = w ∧
      c.build_command =
        c.compiler ++ " ".toList ++ "-o ".toList ++ c.artifact_file_path ++ " ".toList ++
          (flagWord (w.env "CPPFLAGS".toList) ++
            flagWord (w.env (langFlagsVar c.rez_definition_lang))) ++
          ostreamPath c.rez_definition_path) :=
  Load_build_command m cfg c w h

theorem C9_flag_segment_witness :
    (Load false Config.init worldFlags).1 = Except.ok configFlags ∧
    ((configFlags.compiler = DefaultCompilerWindows →
      configFlags.build_command =
        configFlags.compiler ++ " ".toList ++
          (flagWord ((Load false Config.init worldFlags).2.env "CPPFLAGS".toList) ++
            flagWord ((Load false Config.init worldFlags).2.env
              (langFlagsVar configFlags.rez_definition_lang))) ++
          ostreamPath configFlags.rez_definition_path ++ " /link /out:".toList ++
          configFlags.artifact_file_path) ∧
    (configFlags.compiler ≠ DefaultCompilerWindows →
      (Load false Config.init worldFlags).2 = worldFlags ∧
      configFlags.build_command =
        configFlags.compiler ++ " ".toList ++ "-o ".toList ++ configFlags.artifact_file_path ++
          " ".toList ++
          (flagWord (worldFlags.env "CPPFLAGS".toList) ++
            flagWord (worldFlags.env (langFlagsVar configFlags.rez_definition_lang))) ++
          ostreamPath configFlags.rez_definition_path)) :=
  ⟨rfl, C9_flag_segment false Config.init configFlags worldFlags rfl⟩

/-! ## Results on `Config::ApplyMSVCToolchain` -/

/-! ### The filesystem and stream operations -/

/-- When the cache directory path is free or holds a directory,
`create_directories` succeeds, leaves environment and process oracle alone and
keeps every node that was there. -/
theorem create_directories_ok (w : World) (p : Str)
    (hdir : w.fs p = none ∨ w.fs p = some Node.dir) :
    ∃ w1, create_directories w p = Except.ok w1 ∧ w1.env = w.env ∧ w1.popen = w.popen ∧
      ∀ q n, w.fs q = some n → w1.fs q = some n := by
  unfold create_directories
  cases hp : w.fs p with
  | none =>
    refine ⟨_, rfl, rfl, rfl, ?_⟩
    intro q n hq
    have hqp : q ≠ p := by
      intro e
      rw [e, hp] at hq
      cases hq
    simp [hqp, hq]
  | some x =>
    cases x with
    | file c =>
      rw [hp] at hdir
      rcases hdir with h | h <;> cases h
    | dir => exact ⟨w, rfl, rfl, rfl, fun q n hq => hq⟩

theorem query_command_congr (w w1 : World) (h : w1.env = w.env) :
    query_command w1 = query_command w := by
  unfold query_command GetEnvironmentVariable
  rw [h]

theorem getline_fields (s s1 : FStream) (line : Str) (h : s.getline = some (line, s1)) :
    s1.good = s.good ∧ s1.path = s.path ∧ s1.buf = s.buf ∧ s.pos < s1.pos ∧
      s.pos < s.buf.length := by
  unfold FStream.getline at h
  cases hg : s.good with
  | false => simp [hg] at h
  | true =>
    simp only [hg, Bool.true_eq_false, if_false] at h
    cases hd : s.buf.drop s.pos with
    | nil => simp [hd] at h
    | cons c cs =>
      rw [hd] at h
      simp only [Option.some.injEq, Prod.mk.injEq] at h
      obtain ⟨-, rfl⟩ := h
      refine ⟨rfl, rfl, rfl, ?_, ?_⟩
      · simp only
        split
        · omega
        · rename_i hlt
          simp only [List.length_cons] at hlt
          omega
      · by_contra hge
        rw [List.drop_eq_nil_of_le (by omega)] at hd
        cases hd

/-- The second loop leaves the stream attached to the same file with the same
content. -/
theorem applyLoop_fields (m : Bool) (fuel : Nat) (cache : FStream) (env : Str → Option Str) :
    (applyLoop m fuel cache env).2.1.good = cache.good ∧
    (applyLoop m fuel cache env).2.1.path = cache.path ∧
    (applyLoop m fuel cache env).2.1.buf = cache.buf := by
  induction fuel generalizing cache env with
  | zero => exact ⟨rfl, rfl, rfl⟩
  | succ n ih =>
    cases hg : cache.getline with
    | none =>
      simp only [applyLoop, hg]
      exact ⟨trivial, trivial, trivial⟩
    | some r =>
      obtain ⟨line, cache1⟩ := r
      obtain ⟨h1, h2, h3, -, -⟩ := getline_fields cache cache1 line hg
      cases ha : applyLine m env line with
      | none =>
        simp only [applyLoop, hg, ha]
        exact ⟨h1, h2, h3⟩
      | some env1 =>
        simp only [applyLoop, hg, ha]
        obtain ⟨i1, i2, i3⟩ := ih cache1 env1
        exact ⟨i1.trans h1, i2.trans h2, i3.trans h3⟩

/-- The fuel given to the second loop is enough: more fuel changes nothing. -/
theorem applyLoop_fuel (m : Bool) (f1 f2 : Nat) (cache : FStream) (env : Str → Option Str)
    (h1 : cache.buf.length - cache.pos < f1) (h2 : cache.buf.length - cache.pos < f2) :
    applyLoop m f1 cache env = applyLoop m f2 cache env := by
  induction f1 generalizing f2 cache env with
  | zero => omega
  | succ n ih =>
    cases f2 with
    | zero => omega
    | succ n2 =>
      cases hg : cache.getline with
      | none => simp only [applyLoop, hg]
      | some r =>
        obtain ⟨line, cache1⟩ := r
        obtain ⟨-, -, h3, h4, h5⟩ := getline_fields cache cache1 line hg
        cases ha : applyLine m env line with
        | none => simp only [applyLoop, hg, ha]
        | some env1 =>
          simp only [applyLoop, hg, ha]
          apply ih
          · rw [h3]; omega
          · rw [h3]; omega

/-- What `applyCache` leaves in the file a usable stream is attached to. -/
theorem applyCache_fs (m : Bool) (cache : FStream) (w : World) (hg : cache.good = true) :
    (applyCache m cache w).2.fs cache.path = some (Node.file cache.buf) := by
  unfold applyCache
  obtain ⟨h1, h2, h3⟩ := applyLoop_fields m (cache.buf.length - cache.pos + 1) cache w.env
  simp only [FStream.close, h1, hg, h2, h3, if_true]

/-! ### C strings -/

theorem cstr_eq_self (s : Str) (h : Char.ofNat 0 ∉ s) : cstr s = s := by
  unfold cstr
  rw [List.takeWhile_eq_self_iff]
  intro x hx
  have : x ≠ Char.ofNat 0 := fun e => h (e ▸ hx)
  simpa using this

theorem mem_of_mem_cstr (s : Str) (c : Char) (h : c ∈ cstr s) : c ∈ s := by
  induction s with
  | nil => simp [cstr] at h
  | cons x xs ih =>
    unfold cstr at h
    by_cases hx : x = Char.ofNat 0
    · simp [List.takeWhile_cons, hx] at h
    · simp only [List.takeWhile_cons, ne_eq, hx, not_false_eq_true, decide_True, if_true,
        List.mem_cons] at h
      rcases h with h | h
      · exact h ▸ List.mem_cons_self _ _
      · exact List.mem_cons_of_mem _ (ih h)

/-! ### The first loop -/

theorem readChunk_append (k : Nat) (s : Str) : (readChunk k s).1 ++ (readChunk k s).2 = s := by
  induction k generalizing s with
  | zero => simp [readChunk]
  | succ n ih =>
    cases s with
    | nil => simp [readChunk]
    | cons c cs =>
      unfold readChunk
      by_cases hc : c = '\n'
      · simp [hc]
      · simp [hc, ih cs]

theorem readChunk_ne_nil (k : Nat) (c : Char) (cs : Str) :
    (readChunk (k + 1) (c :: cs)).1 ≠ [] := by
  unfold readChunk
  by_cases hc : c = '\n' <;> simp [hc]

/-- Every call of `fgets` that returns data shortens what is left to read. -/
theorem fgets_rest_lt (out line rest : Str) (h : fgets LineBufferSize out = some (line, rest)) :
    rest.length < out.length := by
  cases out with
  | nil => simp [fgets] at h
  | cons c cs =>
    simp only [fgets, Option.some.injEq] at h
    have h1 := readChunk_append (LineBufferSize - 1) (c :: cs)
    have h2 : (readChunk (LineBufferSize - 1) (c :: cs)).1 ≠ [] :=
      readChunk_ne_nil 32758 c cs
    rw [h] at h1 h2
    simp only at h1 h2
    have h3 := congrArg List.length h1
    simp only [List.length_append] at h3
    have h4 : 0 < line.length := List.length_pos.mpr h2
    omega

/-- The fuel given to the first loop is enough: more fuel changes nothing. -/
theorem queryLoop_fuel (f1 f2 : Nat) (out : Str) (cache : FStream)
    (h1 : out.length ≤ f1) (h2 : out.length ≤ f2) :
    queryLoop f1 out cache = queryLoop f2 out cache := by
  induction f1 generalizing f2 out cache with
  | zero =>
    have : out = [] := List.length_eq_zero.mp (by omega)
    subst this
    cases f2 <;> simp [queryLoop, fgets]
  | succ n ih =>
    cases hf : fgets LineBufferSize out with
    | none =>
      cases f2 <;> simp [queryLoop, hf]
    | some r =>
      obtain ⟨line, rest⟩ := r
      have hlt := fgets_rest_lt out line rest hf
      cases f2 with
      | zero => omega
      | succ n2 =>
        simp only [queryLoop, hf]
        apply ih <;> omega

theorem queryLoop_nil (fuel : Nat) (cache : FStream) : queryLoop fuel [] cache = cache := by
  cases fuel <;> simp [queryLoop, fgets]

theorem write_at_end (cache : FStream) (text : Str) (hg : cache.good = true)
    (hpos : cache.pos = cache.buf.length) :
    (cache.write text).good = true ∧ (cache.write text).path = cache.path ∧
    (cache.write text).buf = cache.buf ++ text ∧
    (cache.write text).pos = (cache.write text).buf.length := by
  unfold FStream.write
  simp [hg, hpos]

/-- The first loop keeps a usable stream usable, attached to the same file, with
the file position at the end of what has been written. -/
theorem queryLoop_inv (fuel : Nat) (out : Str) (cache : FStream) (hg : cache.good = true)
    (hpos : cache.pos = cache.buf.length) :
    (queryLoop fuel out cache).good = true ∧ (queryLoop fuel out cache).path = cache.path ∧
    (queryLoop fuel out cache).pos = (queryLoop fuel out cache).buf.length := by
  induction fuel generalizing out cache with
  | zero => exact ⟨hg, rfl, hpos⟩
  | succ n ih =>
    cases hf : fgets LineBufferSize out with
    | none =>
      simp only [queryLoop, hf]
      exact ⟨hg, trivial, hpos⟩
    | some r =>
      obtain ⟨line, rest⟩ := r
      simp only [queryLoop, hf]
      by_cases he : '=' ∈ cstr line
      · rw [if_pos he]
        obtain ⟨w1, w2, -, w4⟩ := write_at_end cache (cstr line) hg hpos
        obtain ⟨i1, i2, i3⟩ := ih rest (cache.write (cstr line)) w1 w4
        exact ⟨i1, i2.trans w2, i3⟩
      · rw [if_neg he]
        exact ih rest cache hg hpos

theorem outputLines_eq_nil (s : Str) (h : outputLines s = []) : s = [] := by
  cases s with
  | nil => rfl
  | cons c cs =>
    unfold outputLines at h
    by_cases hc : c = '\n'
    · simp [hc] at h
    · simp only [hc, if_false] at h
      cases hcs : outputLines cs <;> simp [hcs] at h

/-- A chunk is the first line of the text or a proper beginning of it: either
the chunk is the whole first line and the lines of what is left are the other
lines, or the first line goes on in what is left. -/
theorem readChunk_split (s : Str) (k : Nat) (l : Str) (ls : List Str)
    (h : outputLines s = l :: ls) :
    ((readChunk k s).1 = l ∧ outputLines (readChunk k s).2 = ls) ∨
    (∃ l1, l = (readChunk k s).1 ++ l1 ∧ outputLines (readChunk k s).2 = l1 :: ls) := by
  induction s generalizing k l ls with
  | nil => simp [outputLines] at h
  | cons c cs ih =>
    cases k with
    | zero =>
      right
      exact ⟨l, by simp [readChunk], by simpa [readChunk] using h⟩
    | succ n =>
      unfold outputLines at h
      by_cases hc : c = '\n'
      · simp only [hc, if_true, List.cons.injEq] at h
        obtain ⟨rfl, rfl⟩ := h
        left
        simp [readChunk, hc]
      · simp only [hc, if_false] at h
        cases hcs : outputLines cs with
        | nil =>
          rw [hcs] at h
          simp only [List.cons.injEq] at h
          obtain ⟨rfl, rfl⟩ := h
          have hnil := outputLines_eq_nil cs hcs
          subst hnil
          left
          cases n <;> simp [readChunk, hc, outputLines]
        | cons l1 ls1 =>
          rw [hcs] at h
          simp only [List.cons.injEq] at h
          obtain ⟨rfl, rfl⟩ := h
          rcases ih n l1 ls1 hcs with ⟨i1, i2⟩ | ⟨l2, i1, i2⟩
          · left
            simp [readChunk, hc, i1, i2]
          · right
            refine ⟨l2, ?_, ?_⟩
            · simp only [readChunk, hc, if_false, List.cons_append]
              rw [← i1]
            · simp only [readChunk, hc, if_false]
              exact i2

/-- A chunk read with enough budget is the first line of the text, and the
lines of what is left are the remaining lines. -/
theorem readChunk_line (s : Str) (k : Nat) (l : Str) (ls : List Str)
    (h : outputLines s = l :: ls) (hk : l.length ≤ k) :
    (readChunk k s).1 = l ∧ outputLines (readChunk k s).2 = ls := by
  induction s generalizing k l ls with
  | nil => simp [outputLines] at h
  | cons c cs ih =>
    unfold outputLines at h
    by_cases hc : c = '\n'
    · simp only [hc, if_true, List.cons.injEq] at h
      obtain ⟨rfl, rfl⟩ := h
      cases k with
      | zero => simp at hk
      | succ n => simp [readChunk, hc]
    · simp only [hc, if_false] at h
      cases hcs : outputLines cs with
      | nil =>
        rw [hcs] at h
        simp only [List.cons.injEq] at h
        obtain ⟨rfl, rfl⟩ := h
        have hnil := outputLines_eq_nil cs hcs
        subst hnil
        cases k with
        | zero => simp at hk
        | succ n =>
          cases n <;> simp [readChunk, hc, outputLines]
      | cons l1 ls1 =>
        rw [hcs] at h
        simp only [List.cons.injEq] at h
        obtain ⟨rfl, rfl⟩ := h
        cases k with
        | zero => simp at hk
        | succ n =>
          simp only [List.length_cons, Nat.add_le_add_iff_right] at hk
          obtain ⟨i1, i2⟩ := ih n l1 ls1 hcs hk
          simp [readChunk, hc, i1, i2]

/-- The retained text of a list of lines whose first line holds no equals sign. -/
theorem retained_skip (l : Str) (ls : List Str) (he : '=' ∉ l) :
    ((l :: ls).filter (fun l => decide ('=' ∈ l))).flatten =
      (ls.filter (fun l => decide ('=' ∈ l))).flatten := by
  simp [List.filter_cons, he]

/-- The retained text of a list of lines whose first line holds an equals sign. -/
theorem retained_keep (l : Str) (ls : List Str) (he : '=' ∈ l) :
    ((l :: ls).filter (fun l => decide ('=' ∈ l))).flatten =
      l ++ (ls.filter (fun l => decide ('=' ∈ l))).flatten := by
  simp [List.filter_cons, he]

/-- When every line of the output that holds an equals sign fits the line
buffer and holds no NUL, the first loop writes exactly the lines that hold an
equals sign. Lines without equals sign may be of any length and content. -/
theorem queryLoop_lines (fuel : Nat) (out : Str) (cache : FStream) (hg : cache.good = true)
    (hpos : cache.pos = cache.buf.length) (hfuel : out.length ≤ fuel)
    (hlines : ∀ l ∈ outputLines out, '=' ∈ l →
      l.length < LineBufferSize ∧ Char.ofNat 0 ∉ l) :
    (queryLoop fuel out cache).buf = cache.buf ++ retainedLines out := by
  induction fuel generalizing out cache with
  | zero =>
    have : out = [] := List.length_eq_zero.mp (by omega)
    subst this
    simp [queryLoop, retainedLines, outputLines]
  | succ n ih =>
    cases out with
    | nil => simp [queryLoop, fgets, retainedLines, outputLines]
    | cons c cs =>
      cases hol : outputLines (c :: cs) with
      | nil => cases outputLines_eq_nil _ hol
      | cons l ls =>
        have hf : fgets LineBufferSize (c :: cs) =
            some ((readChunk (LineBufferSize - 1) (c :: cs)).1,
              (readChunk (LineBufferSize - 1) (c :: cs)).2) := rfl
        have hlt := fgets_rest_lt _ _ _ hf
        simp only [List.length_cons] at hlt hfuel
        have hrest : ∀ l1 ∈ ls, '=' ∈ l1 → l1.length < LineBufferSize ∧ Char.ofNat 0 ∉ l1 :=
          fun l1 hl1 => hlines l1 (by rw [hol]; exact List.mem_cons_of_mem _ hl1)
        simp only [queryLoop, hf]
        unfold retainedLines
        rw [hol]
        by_cases he : '=' ∈ l
        · obtain ⟨hshort, hnul⟩ := hlines l (by rw [hol]; exact List.mem_cons_self _ _) he
          obtain ⟨r1, r2⟩ := readChunk_line (c :: cs) (LineBufferSize - 1) l ls hol (by omega)
          rw [r1, cstr_eq_self l hnul, if_pos he, retained_keep l ls he]
          obtain ⟨w1, -, w3, w4⟩ := write_at_end cache l hg hpos
          have := ih (readChunk (LineBufferSize - 1) (c :: cs)).2 (cache.write l) w1 w4 (by omega) (by rw [r2]; exact hrest)
          rw [this, w3, List.append_assoc]
          unfold retainedLines
          rw [r2]
        · rw [retained_skip l ls he]
          rcases readChunk_split (c :: cs) (LineBufferSize - 1) l ls hol with
            ⟨r1, r2⟩ | ⟨l1, r1, r2⟩
          · have hne : '=' ∉ cstr (readChunk (LineBufferSize - 1) (c :: cs)).1 :=
              fun e => he (r1 ▸ mem_of_mem_cstr _ _ e)
            rw [if_neg hne]
            have := ih (readChunk (LineBufferSize - 1) (c :: cs)).2 cache hg hpos (by omega) (by rw [r2]; exact hrest)
            rw [this]
            unfold retainedLines
            rw [r2]
          · have hch : '=' ∉ (readChunk (LineBufferSize - 1) (c :: cs)).1 :=
              fun e => he (by rw [r1]; exact List.mem_append_left _ e)
            have hl1 : '=' ∉ l1 := fun e => he (by rw [r1]; exact List.mem_append_right _ e)
            have hne : '=' ∉ cstr (readChunk (LineBufferSize - 1) (c :: cs)).1 :=
              fun e => hch (mem_of_mem_cstr _ _ e)
            rw [if_neg hne]
            have := ih (readChunk (LineBufferSize - 1) (c :: cs)).2 cache hg hpos (by omega) (by
              rw [r2]
              intro l2 hl2 he2
              rcases List.mem_cons.mp hl2 with e | hm
              · exact absurd (e ▸ he2) hl1
              · exact hrest l2 hm he2)
            rw [this]
            unfold retainedLines
            rw [r2, retained_skip l1 ls hl1]

/-! ### Decimal rendering -/

theorem close_env (s : FStream) (w : World) : (s.close w).env = w.env := by
  unfold FStream.close
  split <;> rfl

theorem close_fs (s : FStream) (w : World) (hg : s.good = true) :
    (s.close w).fs s.path = some (Node.file s.buf) := by
  unfold FStream.close
  simp [hg]

theorem applyCache_env_of_close (m : Bool) (cache : FStream) (w : World) :
    (applyCache m cache w).2.env =
      (applyLoop m (cache.buf.length - cache.pos + 1) cache w.env).2.2 := by
  unfold applyCache
  rw [close_env]

/-- The run of `ApplyMSVCToolchain` on an existing empty cache file, with the
cache directory path free or holding a directory and a query command that can
be launched. -/
theorem ApplyMSVCToolchain_miss (m : Bool) (cfg : Config) (w : World) (out : Str) (st : Int)
    (hdir : w.fs CacheDir = none ∨ w.fs CacheDir = some Node.dir)
    (hfs : w.fs cfg.cache_file_path = some (Node.file []))
    (hp : w.popen (cstr (query_command w)) = some (out, st)) :
    ∃ w1, w1.env = w.env ∧
      ApplyMSVCToolchain m cfg w =
        if pclose m st ≠ 0 then
          (Except.error (queryError (query_command w) (pclose m st)),
            (queryLoop out.length out
              { good := true, path := cfg.cache_file_path, buf := [], pos := 0 }).close w1)
        else
          applyCache m
            (queryLoop out.length out
              { good := true, path := cfg.cache_file_path, buf := [], pos := 0 }).seekg0 w1 := by
  obtain ⟨w1, hc, henv, hpop, hkeep⟩ := create_directories_ok w CacheDir hdir
  refine ⟨w1, henv, ?_⟩
  have h1 := hkeep _ _ hfs
  have hq := query_command_congr w w1 henv
  unfold ApplyMSVCToolchain
  rw [hc]
  simp only [file_size, FStream.open, h1, hq, hpop, hp]
  simp

/-- The file content after such a run is what the first loop wrote. -/
theorem ApplyMSVCToolchain_miss_fs (m : Bool) (cfg : Config) (w : World) (out : Str) (st : Int)
    (hdir : w.fs CacheDir = none ∨ w.fs CacheDir = some Node.dir)
    (hfs : w.fs cfg.cache_file_path = some (Node.file []))
    (hp : w.popen (cstr (query_command w)) = some (out, st)) :
    (ApplyMSVCToolchain m cfg w).2.fs cfg.cache_file_path =
      some (Node.file (queryLoop out.length out
        { good := true, path := cfg.cache_file_path, buf := [], pos := 0 }).buf) := by
  obtain ⟨w1, -, hrun⟩ := ApplyMSVCToolchain_miss m cfg w out st hdir hfs hp
  rw [hrun]
  obtain ⟨i1, i2, -⟩ := queryLoop_inv out.length out
    { good := true, path := cfg.cache_file_path, buf := [], pos := 0 } rfl rfl
  simp only at i2
  by_cases hst : pclose m st ≠ 0
  · rw [if_pos hst]
    have := close_fs (queryLoop out.length out
      { good := true, path := cfg.cache_file_path, buf := [], pos := 0 }) w1 i1
    rw [i2] at this
    exact this
  · rw [if_neg hst]
    have hg : (queryLoop out.length out
      { good := true, path := cfg.cache_file_path, buf := [], pos := 0 }).seekg0.good = true := by
      simp [FStream.seekg0, i1]
    have := applyCache_fs m _ w1 hg
    simpa [FStream.seekg0, i1, i2] using this

theorem readChunk_replicate (k : Nat) (rest : Str) :
    readChunk k (List.replicate k 'a' ++ rest) = (List.replicate k 'a', rest) := by
  induction k with
  | zero => simp [readChunk]
  | succ n ih =>
    simp only [List.replicate_succ, List.cons_append, readChunk, List.append_eq, ih]
    simp

theorem outputLines_single_line (s : Str) (h : '\n' ∉ s) :
    outputLines (s ++ ['\n']) = [s ++ ['\n']] := by
  induction s with
  | nil => simp [outputLines]
  | cons c cs ih =>
    have hc : c ≠ '\n' := fun e => h (by simp [e])
    have hcs : '\n' ∉ cs := fun e => h (List.mem_cons_of_mem _ e)
    simp only [List.cons_append, outputLines, hc, if_false, List.append_eq, ih hcs]

theorem longLine_length : longLine.length = 32761 + 1 + 1 := by
  unfold longLine
  rw [List.length_append, List.length_replicate]
  rfl

theorem longLine_mem : '=' ∈ longLine :=
  List.mem_append.mpr (Or.inr (by decide))

theorem longLine_lines : outputLines longLine = [longLine] := by
  have h : longLine = (List.replicate 32759 'a' ++ "b=c".toList) ++ ['\n'] := by
    unfold longLine
    rw [List.append_assoc]
    exact congrArg (fun t => List.replicate 32759 'a' ++ t)
      (by decide : "b=c\n".toList = "b=c".toList ++ ['\n'])
  rw [h]
  apply outputLines_single_line
  simp only [List.mem_append, List.mem_replicate, not_or]
  exact ⟨fun e => absurd e.2 (by decide), by decide⟩

theorem longLine_retained : retainedLines longLine = longLine := by
  unfold retainedLines
  rw [longLine_lines]
  simp only [List.filter, longLine_mem, decide_True, List.flatten_cons, List.flatten_nil,
    List.append_nil]

theorem fgets_replicate (n k : Nat) (rest : Str) (h : n - 1 = k + 1) :
    fgets n (List.replicate (k + 1) 'a' ++ rest) = some (List.replicate (k + 1) 'a', rest) := by
  rw [List.replicate_succ, List.cons_append]
  simp only [fgets, h]
  rw [← List.cons_append, ← List.replicate_succ]
  exact congrArg some (readChunk_replicate (k + 1) rest)

theorem longLine_written (cache : FStream) (hg : cache.good = true)
    (hpos : cache.pos = cache.buf.length) :
    (queryLoop longLine.length longLine cache).buf = cache.buf ++ "b=c\n".toList := by
  have h1 : fgets LineBufferSize longLine = some (List.replicate 32759 'a', "b=c\n".toList) :=
    fgets_replicate LineBufferSize 32758 "b=c\n".toList rfl
  have h2 : fgets LineBufferSize "b=c\n".toList = some ("b=c\n".toList, []) := by decide
  have hne : '=' ∉ cstr (List.replicate 32759 'a') := by
    intro e
    have := mem_of_mem_cstr _ _ e
    simp only [List.mem_replicate] at this
    exact absurd this.2 (by decide)
  have hc : cstr "b=c\n".toList = "b=c\n".toList := by decide
  have he : '=' ∈ "b=c\n".toList := by decide
  rw [longLine_length]
  rw [queryLoop, h1]
  simp only [hne, if_false]
  rw [queryLoop, h2]
  simp only [hc, he, if_true]
  rw [queryLoop_nil]
  exact (write_at_end cache _ hg hpos).2.2.1

/-- C8 fails as stated, in two ways. (a) The query prints one line of 32763
characters that holds an equals sign near its end: the claim has that whole
line written to the cache file; the code reads it in two chunks, drops the
first 32759 characters and writes only `b=c` with the newline. (b) The query
prints a line with a NUL in front of its equals sign, then `CC=d`: the claim
has both lines written; `strchr` stops at the NUL, the first line is dropped
and only `CC=d` is written. -/
theorem C8_counterexample :
    (worldLongLine.fs (configBoot true).cache_file_path = some (Node.file []) ∧
      worldLongLine.popen (cstr (query_command worldLongLine)) = some (longLine, 0) ∧
      outputLines longLine = [longLine] ∧
      '=' ∈ longLine ∧
      retainedLines longLine = longLine ∧
      (ApplyMSVCToolchain true (configBoot true) worldLongLine).2.fs
          (configBoot true).cache_file_path = some (Node.file "b=c\n".toList) ∧
      (ApplyMSVCToolchain true (configBoot true) worldLongLine).2.fs
          (configBoot true).cache_file_path ≠ some (Node.file (retainedLines longLine))) ∧
    (worldNulLine.fs (configBoot true).cache_file_path = some (Node.file []) ∧
      worldNulLine.popen (cstr (query_command worldNulLine)) =
        some ("A\x00=b\nCC=d\n".toList, 0) ∧
      retainedLines "A\x00=b\nCC=d\n".toList = "A\x00=b\nCC=d\n".toList ∧
      (ApplyMSVCToolchain true (configBoot true) worldNulLine).2.fs
          (configBoot true).cache_file_path = some (Node.file "CC=d\n".toList) ∧
      (ApplyMSVCToolchain true (configBoot true) worldNulLine).2.fs
          (configBoot true).cache_file_path ≠
        some (Node.file (retainedLines "A\x00=b\nCC=d\n".toList))) := by
  have hdir : worldLongLine.fs CacheDir = none ∨ worldLongLine.fs CacheDir = some Node.dir := by
    decide
  have hfs : worldLongLine.fs (configBoot true).cache_file_path = some (Node.file []) := by
    decide
  have hw := ApplyMSVCToolchain_miss_fs true (configBoot true) worldLongLine longLine 0 hdir
    hfs rfl
  rw [longLine_written _ rfl rfl] at hw
  refine ⟨⟨hfs, rfl, longLine_lines, longLine_mem, longLine_retained, hw, ?_⟩,
    ⟨by decide, rfl, by decide, by decide, by decide⟩⟩
  rw [hw, longLine_retained]
  intro e
  have e2 : "b=c\n".toList = longLine := Node.file.inj (Option.some.inj e)
  have e3 := congrArg List.length e2
  rw [longLine_length] at e3
  revert e3
  decide

/-- C8 (amended): on a cache miss with an existing empty cache file, in every
run that reaches the query, for every output of the query in which each line
that holds an equals sign is shorter than the 32760 characters of the line
buffer (newline included) and holds no NUL, the content `ApplyMSVCToolchain`
leaves in the cache file is exactly the lines of the output that hold an equals
sign, verbatim and in order, whatever the exit status of the query. Lines
without equals sign are dropped whatever their length and content. -/
theorem C8_assignment_lines_filtered (m : Bool) (cfg : Config) (w : World) (out : Str)
    (st : Int) (hdir : w.fs CacheDir = none ∨ w.fs CacheDir = some Node.dir)
    (hfs : w.fs cfg.cache_file_path = some (Node.file []))
    (hp : w.popen (cstr (query_command w)) = some (out, st))
    (hlines : ∀ l ∈ outputLines out, '=' ∈ l →
      l.length < LineBufferSize ∧ Char.ofNat 0 ∉ l) :
    (ApplyMSVCToolchain m cfg w).2.fs cfg.cache_file_path =
      some (Node.file (retainedLines out)) := by
  rw [ApplyMSVCToolchain_miss_fs m cfg w out st hdir hfs hp]
  rw [queryLoop_lines out.length out _ rfl rfl (Nat.le_refl _) hlines]
  simp

theorem C8_assignment_lines_filtered_witness :
    (worldQueryOk.fs CacheDir = none ∨ worldQueryOk.fs CacheDir = some Node.dir) ∧
    worldQueryOk.fs (configBoot true).cache_file_path = some (Node.file []) ∧
    worldQueryOk.popen (cstr (query_command worldQueryOk)) =
      some ("banner\nFOO=bar\nwarning\nINCLUDE=C:\\inc\n".toList, 0) ∧
    (∀ l ∈ outputLines "banner\nFOO=bar\nwarning\nINCLUDE=C:\\inc\n".toList, '=' ∈ l →
      l.length < LineBufferSize ∧ Char.ofNat 0 ∉ l) ∧
    retainedLines "banner\nFOO=bar\nwarning\nINCLUDE=C:\\inc\n".toList =
      "FOO=bar\nINCLUDE=C:\\inc\n".toList ∧
    (ApplyMSVCToolchain true (configBoot true) worldQueryOk).2.fs
        (configBoot true).cache_file_path =
      some (Node.file (retainedLines "banner\nFOO=bar\nwarning\nINCLUDE=C:\\inc\n".toList)) :=
  ⟨by decide, by decide, rfl, by decide, by decide,
    C8_assignment_lines_filtered true (configBoot true) worldQueryOk
      "banner\nFOO=bar\nwarning\nINCLUDE=C:\\inc\n".toList 0 (by decide) (by decide) rfl
      (by decide)⟩

/-! ### The second loop: applying cache lines -/

theorem drop_key (key value : Str) : (key ++ '=' :: value).drop (key.length + 1) = value := by
  rw [List.drop_append]
  rfl

theorem indexOf_key (key value : Str) (hk2 : '=' ∉ key) :
    (key ++ '=' :: value).indexOf '=' = key.length := by
  induction key with
  | nil => simp
  | cons c cs ih =>
    have hc : c ≠ '=' := fun e => hk2 (by simp [e])
    have hcs : '=' ∉ cs := fun e => hk2 (List.mem_cons_of_mem _ e)
    simp only [List.cons_append, List.length_cons]
    rw [List.indexOf_cons_ne _ hc, ih hcs]

/-- Under MSVC a NUL-free line `KEY=VALUE` with a non-empty key free of equals
signs and a non-empty value binds exactly KEY to VALUE. -/
theorem applyLine_msvc (env : Str → Option Str) (key value : Str) (hk : key ≠ [])
    (hk2 : '=' ∉ key) (hv : value ≠ []) (hnul : Char.ofNat 0 ∉ key ++ '=' :: value) :
    applyLine true env (key ++ '=' :: value) =
      some (fun k => if k = key then some value else env k) := by
  have htw : (key ++ '=' :: value).takeWhile (fun x => decide (x ≠ '=')) = key := by
    rw [List.takeWhile_append_of_pos (fun a ha => by
      have : a ≠ '=' := fun e => hk2 (e ▸ ha)
      simpa using this)]
    simp
  have hhead : (key ++ '=' :: value).head? ≠ some '=' := by
    cases key with
    | nil => exact absurd rfl hk
    | cons c cs =>
      have : c ≠ '=' := fun e => hk2 (by simp [e])
      simpa using this
  have hmem : '=' ∈ key ++ '=' :: value := by simp
  simp only [applyLine, cstr_eq_self _ hnul, _putenv, if_true, htw, drop_key, hmem,
    not_true_eq_false, hhead, or_self, if_false, hv]

/-- Outside MSVC the key passed to `setenv` is one character short: a NUL-free
line `KEY=VALUE` whose key has at least two characters binds KEY without its
last character to VALUE, and leaves KEY itself as it was. -/
theorem applyLine_posix (env : Str → Option Str) (key value : Str) (hk : 2 ≤ key.length)
    (hk2 : '=' ∉ key) (hlen : key.length < 2 ^ 64 - 1)
    (hnul : Char.ofNat 0 ∉ key ++ '=' :: value) :
    applyLine false env (key ++ '=' :: value) =
      some (fun k => if k = key.dropLast then some value else env k) := by
  have hmem : '=' ∈ key ++ '=' :: value := by simp
  have hj : find (key ++ '=' :: value) '=' = key.length := by
    simp only [find, hmem, if_true, indexOf_key key value hk2]
  have hm1 : (key.length + 2 ^ 64 - 1) % 2 ^ 64 = key.length - 1 := by omega
  have hp1 : (key.length + 1) % 2 ^ 64 = key.length + 1 := by omega
  have hkey : substr (key ++ '=' :: value) 0 (key.length - 1) = key.dropLast := by
    simp only [substr, List.drop_zero]
    rw [List.take_append_of_le_length (by omega), List.dropLast_eq_take]
  have hval : substr (key ++ '=' :: value) (key.length + 1) (key ++ '=' :: value).length
      = value := by
    simp only [substr, drop_key]
    apply List.take_of_length_le
    simp only [List.length_append, List.length_cons]
    omega
  have hne : key.dropLast ≠ [] := by
    intro e
    have := congrArg List.length e
    simp only [List.length_dropLast, List.length_nil] at this
    omega
  have hnm : '=' ∉ key.dropLast := fun e => hk2 (List.dropLast_subset key e)
  have hnk : Char.ofNat 0 ∉ key.dropLast :=
    fun e => hnul (List.mem_append_left _ (List.dropLast_subset key e))
  have hnv : Char.ofNat 0 ∉ value :=
    fun e => hnul (List.mem_append_right _ (List.mem_cons_of_mem _ e))
  simp only [applyLine, Bool.false_eq_true, if_false, hj, hm1, hp1, hkey, hval,
    cstr_eq_self _ hnk, cstr_eq_self _ hnv, setenv, hne, hnm, or_self]

/-- C2: on the cache-hit path of a non-MSVC build, a cache file holding the
single line `FOO=bar` is applied without error and without any query, yet the
variable FOO is still unset afterwards: `substr(0, j - 1)` cuts the last
character off the key, so FO is bound to `bar` instead. The MSVC branch applies
the same line as FOO=bar. -/
theorem C2_key_loses_last_character :
    worldCacheHit.fs (configBoot false).cache_file_path =
      some (Node.file "FOO=bar\n".toList) ∧
    (ApplyMSVCToolchain false (configBoot false) worldCacheHit).1 = Except.ok () ∧
    (ApplyMSVCToolchain false (configBoot false) worldCacheHit).2.env "FOO".toList = none ∧
    (ApplyMSVCToolchain false (configBoot false) worldCacheHit).2.env "FO".toList =
      some "bar".toList ∧
    (applyLine true worldCacheHit.env "FOO=bar".toList).map (fun e => e "FOO".toList) =
      some (some "bar".toList) :=
  ⟨by decide, rfl, by decide, by decide, by decide⟩

/-- C10: a run that starts without a cache file and whose query succeeds after
printing `FOO=bar` returns without error, but `open` with the default mode does
not create the file: afterwards the cache file is still absent (only the cache
directory has been created), FOO is not set in the environment, and a following
run launches the query again instead of taking the cache-hit path. -/
theorem C10_absent_cache_file_is_not_created :
    worldNoCache.fs (configBoot true).cache_file_path = none ∧
    worldNoCache.popen (query_command worldNoCache) = some ("FOO=bar\n".toList, 0) ∧
    (ApplyMSVCToolchain true (configBoot true) worldNoCache).1 = Except.ok () ∧
    (ApplyMSVCToolchain true (configBoot true) worldNoCache).2.fs CacheDir = some Node.dir ∧
    (ApplyMSVCToolchain true (configBoot true) worldNoCache).2.fs
      (configBoot true).cache_file_path = none ∧
    (ApplyMSVCToolchain true (configBoot true) worldNoCache).2.env "FOO".toList = none ∧
    (ApplyMSVCToolchain true (configBoot true)
        { (ApplyMSVCToolchain true (configBoot true) worldNoCache).2 with
          popen := fun _ => none }).1 =
      Except.error ("error launching msvc query command: ".toList ++ query_command worldNoCache) :=
  ⟨by decide, rfl, rfl, by decide, by decide, by decide, rfl⟩

end rez
